import Mathlib

/-!
# stellar-x402: a shallow embedding of the payment mediation pipeline

This file embeds, in Lean, the parts of the `stellar-x402` repository that
its specification talks about:

* route matching and price conversion of the Express gate middleware
  (`packages/x402-stellar-express/src/utils.ts`),
* the buffered settle-before-release request flow of the gate
  (`packages/x402-stellar-express/src/middleware.ts`, the revision with
  response buffering),
* the facilitator `settle` operation (native and SAC paths),
* the client `signPaymentHeader` for SAC tokens,
* the `X-Payment` header envelope
  (`encodePaymentHeader` / `decodePaymentHeader`, base64 of JSON).

Strings are modelled as `List Char`, byte sequences as `List Nat` (each
element `< 256` on the paths exercised), JavaScript `number` values that the
code treats as integers as `Int`/`Nat`, and IEEE-754 binary64 values as
exact fractions together with an explicit round-to-nearest-even operation.
External collaborators (the Stellar SDK, Horizon, Soroban RPC, HTTP
transport) are oracles passed in as explicit parameters.  Recursions carry
explicit fuel so every definition evaluates inside the kernel.
-/

namespace StellarX402

/-! ## Decimal rendering of integers

JavaScript's `toString` on an integer (safe-range double or `BigInt`) is the
plain decimal numeral. -/

/-- The character of a single decimal digit. -/
def digitCh (n : Nat) : Char := Char.ofNat (48 + n % 10)

/-- Decimal digits of `n` in front of `acc`; `fuel` bounds the digit count. -/
def natToCharsCore : Nat → Nat → List Char → List Char
  | 0, _, acc => acc
  | fuel + 1, n, acc =>
      if n < 10 then digitCh n :: acc
      else natToCharsCore fuel (n / 10) (digitCh (n % 10) :: acc)

/-- Decimal numeral of a natural number, as `Number.prototype.toString` and
`BigInt.prototype.toString` produce it for non-negative integers. -/
def natToChars (n : Nat) : List Char := natToCharsCore (n + 1) n []

/-- Decimal numeral of an integer (possible leading minus sign). -/
def intToChars (n : Int) : List Char :=
  if n < 0 then '-' :: natToChars n.natAbs else natToChars n.natAbs

/-! ## Binary64 arithmetic as exact fractions

`parseFloat` and `*` in JavaScript are IEEE-754 binary64 operations.  A
binary64 value in the normal range is the exact rational `m * 2^e` with
`2^52 ≤ |m| < 2^53`; `ratToDouble` rounds an arbitrary fraction to the
nearest such value, ties to even.  The model covers the normal finite range
(no overflow, subnormal or NaN handling), which contains every value these
theorems evaluate it at.  Fractions are kept unreduced (`den` positive in
every construction) so that all arithmetic is plain integer arithmetic. -/

/-- An exact fraction `num / den`; every constructor keeps `den` positive. -/
structure Frac where
  num : Int
  den : Int
  deriving DecidableEq

/-- The fraction of an integer. -/
def Frac.ofInt (n : Int) : Frac := ⟨n, 1⟩

/-- Exact product of fractions. -/
def Frac.mul (a b : Frac) : Frac := ⟨a.num * b.num, a.den * b.den⟩

/-- Exact difference of fractions. -/
def Frac.sub (a b : Frac) : Frac := ⟨a.num * b.den - b.num * a.den, a.den * b.den⟩

/-- `a ≤ b` by cross-multiplication (positive denominators). -/
def Frac.le (a b : Frac) : Bool := a.num * b.den ≤ b.num * a.den

/-- `a < b` by cross-multiplication (positive denominators). -/
def Frac.lt (a b : Frac) : Bool := a.num * b.den < b.num * a.den

/-- Floor of a fraction (`Int.fdiv` floors for all signs). -/
def Frac.floor (a : Frac) : Int := Int.fdiv a.num a.den

/-- The exact rational value of a fraction, for statements. -/
def Frac.val (a : Frac) : ℚ := (a.num : ℚ) / (a.den : ℚ)

/-- Bit length of a natural number (`0` for `0`), with fuel. -/
def bitLenCore : Nat → Nat → Nat
  | 0, _ => 0
  | fuel + 1, n => if n = 0 then 0 else bitLenCore fuel (n / 2) + 1

/-- Bit length of a natural number: `⌊log₂ n⌋ + 1` for `n > 0`. -/
def bitLen (n : Nat) : Nat := bitLenCore (n + 1) n

/-- `2^e` as a fraction, for an integer exponent. -/
def zpow2 (e : Int) : Frac :=
  if 0 ≤ e then ⟨2 ^ e.toNat, 1⟩ else ⟨1, 2 ^ (-e).toNat⟩

/-- Round a fraction to the nearest integer, ties to even. -/
def roundNearestEven (q : Frac) : Int :=
  let f := q.floor
  let r := q.sub (.ofInt f)
  if r.lt ⟨1, 2⟩ then f
  else if Frac.lt ⟨1, 2⟩ r then f + 1
  else if f % 2 = 0 then f else f + 1

/-- `⌊log₂ q⌋` for a positive fraction: an initial guess from the bit
lengths of numerator and denominator, corrected by direct comparison. -/
def floorLog2 (q : Frac) : Int :=
  let g : Int := (bitLen q.num.toNat : Int) - (bitLen q.den.toNat : Int)
  if (zpow2 (g + 1)).le q then g + 1
  else if q.lt (zpow2 g) then g - 1
  else g

/-- Divide a fraction exactly by `2^e`. -/
def divPow2 (q : Frac) (e : Int) : Frac :=
  if 0 ≤ e then ⟨q.num, q.den * 2 ^ e.toNat⟩ else ⟨q.num * 2 ^ (-e).toNat, q.den⟩

/-- Round a positive fraction to the nearest binary64 value (normal range),
ties to even, returned as an exact fraction `m / 2^-e` or `m * 2^e`. -/
def ratToDoublePos (q : Frac) : Frac :=
  let e := floorLog2 q - 52
  (Frac.ofInt (roundNearestEven (divPow2 q e))).mul (zpow2 e)

/-- Round a fraction to the nearest binary64 value (normal range), ties to
even; negative inputs round by sign symmetry. -/
def ratToDouble (q : Frac) : Frac :=
  if q.num = 0 then .ofInt 0
  else if 0 < q.num then ratToDoublePos q
  else
    let p := ratToDoublePos ⟨-q.num, q.den⟩
    ⟨-p.num, p.den⟩

/-- JavaScript `*` on two binary64 values: the exact product, rounded. -/
def jsMul (a b : Frac) : Frac := ratToDouble (a.mul b)

/-! ## `priceToStroops` (`utils.ts`)

```ts
export function priceToStroops(price: Price): string {
  if (typeof price === "number") { return price.toString(); }
  const parsed = parseFloat(price);
  if (isNaN(parsed)) { throw new Error(`Invalid price: ...`); }
  const stroops = BigInt(Math.floor(parsed * 10_000_000));
  return stroops.toString();
}
```
-/

/-- A route price: either a string (XLM, decimal) or a number (stroops). -/
inductive Price where
  | str (s : List Char)
  | num (n : Int)
  deriving DecidableEq

/-- Is `c` a decimal digit? -/
def isDigitCh (c : Char) : Bool := 48 ≤ c.toNat && c.toNat ≤ 57

/-- Value of a run of decimal digits, given a starting accumulator. -/
def digitsVal (acc : Nat) : List Char → Nat
  | [] => acc
  | c :: cs => digitsVal (acc * 10 + (c.toNat - 48)) cs

/-- The exact rational value of a decimal numeral `digits[.digits]`, when the
string has that shape.  `parseFloat` on such a string returns the nearest
binary64 to this value (`parseFloat` is correctly rounded); on a string with
no leading numeral it returns `NaN`, modelled as `none`.  Other `parseFloat`
shapes (signs, exponents, trailing junk) are outside the spec's price
strings and also map to `none`. -/
def parseDecimalChars (s : List Char) : Option Frac :=
  let intPart := s.takeWhile isDigitCh
  let rest := s.dropWhile isDigitCh
  match rest with
  | [] =>
      if intPart = [] then none
      else some (.ofInt (digitsVal 0 intPart))
  | '.' :: frac =>
      if frac.all isDigitCh && !frac.isEmpty then
        some (⟨digitsVal 0 intPart * 10 ^ frac.length + digitsVal 0 frac,
               10 ^ frac.length⟩)
      else none
  | _ => none

/-- `priceToStroops`: numbers pass through via `toString`; decimal strings
go through `parseFloat`, binary64 multiplication by `10^7`, `Math.floor`
(exact on binary64) and `BigInt(...).toString()`.  `none` models the
`throw` on an unparsable price. -/
def priceToStroops (price : Price) : Option (List Char) :=
  match price with
  | .num n => some (intToChars n)
  | .str s =>
      match parseDecimalChars s with
      | none => none
      | some q =>
          some (intToChars ((jsMul (ratToDouble q) (.ofInt 10000000)).floor))

/-- The spec's reading of the conversion: exact decimal arithmetic, multiply
by `10^7` and truncate.  (Stated from the spec's words, for comparison with
`priceToStroops`.) -/
def priceToStroopsSpec (price : Price) : Option (List Char) :=
  match price with
  | .num n => some (intToChars n)
  | .str s =>
      match parseDecimalChars s with
      | none => none
      | some q => some (intToChars ((q.mul (.ofInt 10000000)).floor))

/-! ## Route compilation and matching (`utils.ts`)

`compileRoutePatterns` rewrites each path pattern into a regex source by a
chain of string replacements and pairs it with an upper-cased verb;
`findMatchingRoute` normalizes the request path, filters the compiled
patterns by regex test and verb, and reduces to the match whose regex
source string is longest.

The regexes the pipeline emits use only: literal characters (possibly
backslash-escaped), `.*?` (from `*`), `[^/]+` (from `[param]`), and the
anchors `^`/`$`, compiled with the `i` flag.  `globMatch` interprets
exactly that language directly over the original pattern, tokenized by the
same scan the replacement chain performs; `regexSource` reproduces the
replacement chain literally so that source lengths are exact. -/

/-- Left bracket character (`[`). -/
def lbr : Char := Char.ofNat 91

/-- Right bracket character (`]`). -/
def rbr : Char := Char.ofNat 93

/-- Left curly brace character. -/
def lcurl : Char := Char.ofNat 123

/-- Right curly brace character. -/
def rcurl : Char := Char.ofNat 125

/-- The characters escaped by the first replacement,
`path.replace(/[$()+.?^{|}]/g, "\\$&")`. -/
def isEscTarget (c : Char) : Bool :=
  c = '$' || c = '(' || c = ')' || c = '+' || c = '.' || c = '?' ||
  c = '^' || c = lcurl || c = '|' || c = rcurl

/-- Step 1: escape regex special characters except `*` and brackets. -/
def escapeSpecials (s : List Char) : List Char :=
  s.flatMap fun c => if isEscTarget c then ['\\', c] else [c]

/-- Step 2: `*` becomes `.*?` (replacement `.replace(/\*/g, ".*?")`). -/
def starToRegex (s : List Char) : List Char :=
  s.flatMap fun c => if c = '*' then ['.', '*', '?'] else [c]

/-- Split off the (possibly empty) run before the first `]`:
`some (inner, rest)` with `rest` the suffix after that `]`. -/
def splitAtRB : List Char → Option (List Char × List Char)
  | [] => none
  | c :: cs =>
      if c = rbr then some ([], cs)
      else match splitAtRB cs with
        | none => none
        | some (inner, rest) => some (c :: inner, rest)

/-- Step 3: `[param]` becomes `[^/]+`
(replacement `.replace(/\[([^\]]+)\]/g, "[^/]+")`, leftmost,
non-overlapping, the group requiring at least one non-`]` character). -/
def bracketRepl : Nat → List Char → List Char
  | 0, s => s
  | _ + 1, [] => []
  | fuel + 1, c :: cs =>
      if c = lbr then
        match splitAtRB cs with
        | some (inner, rest) =>
            if inner.isEmpty then c :: bracketRepl fuel cs
            else (lbr :: '^' :: '/' :: rbr :: '+' :: bracketRepl fuel rest)
        | none => c :: bracketRepl fuel cs
      else c :: bracketRepl fuel cs

/-- Step 4: escape slashes (replacement `.replace(/\//g, "\\/")`). -/
def escapeSlashes (s : List Char) : List Char :=
  s.flatMap fun c => if c = '/' then ['\\', c] else [c]

/-- The source string of the compiled anchored regex,
`new RegExp(`^${regexPattern}$`, "i").source`. -/
def regexSource (path : List Char) : List Char :=
  '^' :: escapeSlashes (bracketRepl (path.length + 1)
    (starToRegex (escapeSpecials path))) ++ ['$']

/-- A token of the compiled pattern: a literal character, `.*?`, or
`[^/]+`. -/
inductive GlobTok where
  | lit (c : Char)
  | star
  | param
  deriving DecidableEq

/-- Tokenize the original path by the same scan the replacement chain
performs: `*` is a star, a `[...]` group with non-empty body is a
parameter, everything else is a literal.  (Steps 1, 2 and 4 only insert
escapes or expand `*`, neither of which creates or destroys a bracket
group, so scanning the original path visits the same groups step 3 does.) -/
def tokenizeGlob : Nat → List Char → List GlobTok
  | 0, _ => []
  | _ + 1, [] => []
  | fuel + 1, c :: cs =>
      if c = '*' then .star :: tokenizeGlob fuel cs
      else if c = lbr then
        match splitAtRB cs with
        | some (inner, rest) =>
            if inner.isEmpty then .lit c :: tokenizeGlob fuel cs
            else .param :: tokenizeGlob fuel rest
        | none => .lit c :: tokenizeGlob fuel cs
      else .lit c :: tokenizeGlob fuel cs

/-- Case-insensitive character comparison (the compiled regex carries the
`i` flag). -/
def ciEq (a b : Char) : Bool := a.toLower = b.toLower

/-- JavaScript `.` (no `s` flag) matches anything but a line terminator. -/
def notLineTerm (c : Char) : Bool :=
  !(c = Char.ofNat 10 || c = Char.ofNat 13 ||
    c = Char.ofNat 0x2028 || c = Char.ofNat 0x2029)

/-- Does the anchored compiled regex accept the input?  `star` is `.*?`
(any run of non-line-terminators; laziness does not change acceptance of an
anchored whole-string test), `param` is `[^/]+`. -/
def globMatch : Nat → List GlobTok → List Char → Bool
  | 0, _, _ => false
  | _ + 1, [], [] => true
  | _ + 1, [], _ :: _ => false
  | _ + 1, .lit _ :: _, [] => false
  | fuel + 1, .lit c :: ts, x :: xs => ciEq c x && globMatch fuel ts xs
  | fuel + 1, .star :: ts, xs =>
      globMatch fuel ts xs ||
        match xs with
        | [] => false
        | x :: xs2 => notLineTerm x && globMatch fuel (.star :: ts) xs2
  | _ + 1, .param :: _, [] => false
  | fuel + 1, .param :: ts, x :: xs =>
      decide (x ≠ '/') &&
        (globMatch fuel ts xs || globMatch fuel (.param :: ts) xs)

/-- Fuel sufficient for `globMatch` on the given token and input lists. -/
def globFuel (ts : List GlobTok) (xs : List Char) : Nat :=
  (xs.length + 1) * (ts.length + 2)

/-- Configuration of a single protected route (the fields the matching and
challenge logic reads). -/
structure RouteConfig where
  price : Price
  deriving DecidableEq

/-- A compiled route pattern: upper-cased verb, the compiled regex source
(for specificity comparison), its token reading (for matching), and the
route's configuration. -/
structure RoutePattern where
  verb : List Char
  src : List Char
  toks : List GlobTok
  config : RouteConfig
  deriving DecidableEq

/-- Split a route key into verb and path:
`pattern.includes(" ") ? pattern.split(/\s+/) : ["*", pattern]`
(whitespace modelled as the space character). -/
def splitVerbPath (pat : List Char) : List Char × List Char :=
  if pat.contains ' ' then
    (pat.takeWhile (· ≠ ' '), (pat.dropWhile (· ≠ ' ')).dropWhile (· = ' '))
  else ('*' :: [], pat)

/-- Compile one route entry; `none` models the
`throw new Error("Invalid route pattern")` on an empty path part. -/
def compileRoute (entry : List Char × RouteConfig) : Option RoutePattern :=
  let (verb, path) := splitVerbPath entry.1
  if path.isEmpty then none
  else some
    { verb := verb.map Char.toUpper
      src := regexSource path
      toks := tokenizeGlob (path.length + 1) path
      config := entry.2 }

/-- `compileRoutePatterns`: compile every route entry, in object-insertion
order. -/
def compileRoutePatterns (routes : List (List Char × RouteConfig)) :
    Option (List RoutePattern) :=
  routes.mapM compileRoute

/-- Collapse runs of `/` to a single `/`
(replacement `.replace(/\/+/g, "/")`). -/
def collapseSlashes : List Char → List Char
  | [] => []
  | [c] => [c]
  | a :: b :: r =>
      if a = '/' && b = '/' then collapseSlashes (b :: r)
      else a :: collapseSlashes (b :: r)

/-- Strip the maximal run of trailing slashes when at least one character
precedes it (replacement `.replace(/(.+?)\/+$/, "$1")`). -/
def stripTrailingSlashes (p : List Char) : List Char :=
  let k := (p.reverse.takeWhile (· = '/')).length
  if 1 ≤ k ∧ 1 ≤ p.length - k then p.take (p.length - k) else p

/-- Path normalization of `findMatchingRoute`: drop query and fragment,
turn backslashes into slashes, collapse slash runs, strip trailing
slashes. -/
def normalizePath (p : List Char) : List Char :=
  let p1 := p.takeWhile fun c => !(c = '?' || c = '#')
  let p2 := p1.map fun c => if c = '\\' then '/' else c
  stripTrailingSlashes (collapseSlashes p2)

/-- Does a compiled pattern match the normalized path and upper-cased
method? -/
def routeMatches (rp : RoutePattern) (np um : List Char) : Bool :=
  globMatch (globFuel rp.toks np) rp.toks np &&
    (rp.verb = ['*'] || rp.verb = um)

/-- `findMatchingRoute`: filter the patterns by path and verb, then reduce
to the match whose regex source is longest (`reduce` keeps the earlier
element on ties). -/
def findMatchingRoute (patterns : List RoutePattern) (path method : List Char) :
    Option RoutePattern :=
  match patterns.filter (fun rp =>
      routeMatches rp (normalizePath path) (method.map Char.toUpper)) with
  | [] => none
  | m :: ms =>
      some (ms.foldl (fun a b => if a.src.length < b.src.length then b else a) m)

/-! ## Shared wire types (`x402Specs.ts` declarations)

Field-for-field records of the payload and result shapes the middleware and
facilitator exchange. -/

/-- The inner `payload` object of a `PaymentPayload` (`StellarPayload`). -/
structure StellarPayload where
  signedTxXdr : Option (List Char)
  sourceAccount : List Char
  amount : List Char
  destination : List Char
  asset : List Char
  validUntilLedger : Nat
  nonce : List Char
  deriving DecidableEq

/-- A decoded `X-Payment` payload. -/
structure PaymentPayload where
  x402Version : Nat
  scheme : List Char
  network : List Char
  payload : StellarPayload
  deriving DecidableEq

/-- Payment requirements (the challenge body entry). -/
structure PaymentRequirements where
  scheme : List Char
  network : List Char
  maxAmountRequired : List Char
  resource : List Char
  description : List Char
  mimeType : List Char
  payTo : List Char
  maxTimeoutSeconds : Nat
  asset : List Char
  deriving DecidableEq

/-- A facilitator verification result. -/
structure VerifyResponse where
  isValid : Bool
  invalidReason : Option (List Char)
  payer : Option (List Char)
  deriving DecidableEq

/-- The enumerated error reasons the settle path can produce
(`StellarErrorReasons` of `facilitator.ts`, restricted to those `settle`
emits; constructor names match the source strings). -/
inductive SettleErrorReason where
  | invalidNetwork                    -- "invalid_network"
  | missingSignedTxXdr                -- "invalid_exact_stellar_payload_missing_signed_tx_xdr"
  | invalidXdr                        -- "invalid_exact_stellar_payload_invalid_xdr"
  | feeBumpFailed                     -- "settle_exact_stellar_fee_bump_failed"
  | transactionFailed                 -- "settle_exact_stellar_transaction_failed"
  deriving DecidableEq

/-- A facilitator settlement result. -/
structure SettleResponse where
  success : Bool
  errorReason : Option SettleErrorReason
  payer : List Char
  transaction : List Char
  network : List Char
  deriving DecidableEq

/-! ## The facilitator `settle` operation (`settle.ts`)

`settle` checks the network tag and the presence of a signed transaction,
then routes on the requirement's asset: native XLM settles over Horizon
(with an optional fee-bump when a facilitator key is configured), SAC
tokens settle over Soroban RPC with confirmation polling.  Ledger and SDK
behaviour arrives through a `SettleEnv` of oracles; the returned effect
list records which ledger submissions the call performed. -/

/-- The status of a Soroban `sendTransaction` response. -/
inductive SendStatus where
  | pending                            -- "PENDING"
  | other                              -- any non-PENDING status
  deriving DecidableEq

/-- Outcome of Soroban confirmation polling (`pollTransaction`). -/
inductive PollOutcome where
  | success                            -- final status SUCCESS
  | failedStatus                       -- any other final status
  | raise                              -- polling threw (e.g. timeout)
  deriving DecidableEq

/-- Outcome of a Horizon submission attempt. -/
inductive SubmitOutcome where
  | ok (hash : List Char)
  | raise
  deriving DecidableEq

/-- Oracles for the external calls `settle` makes. -/
structure SettleEnv where
  /-- `STELLAR_NETWORKS[network]` is defined. -/
  networkKnown : Bool
  /-- `FACILITATOR_SECRET_KEY` is configured. -/
  facilitatorKey : Bool
  /-- `TransactionBuilder.fromXDR` + `hash()`: `some txHash`, or `none`
  when parsing throws. -/
  parseOk : Option (List Char)
  /-- build + sign + submit of the fee-bumped transaction. -/
  feeBump : SubmitOutcome
  /-- direct `submitTransaction` of the client's transaction. -/
  direct : SubmitOutcome
  /-- `new Stellar.Transaction(...)` on the SAC path succeeded. -/
  sacParseOk : Bool
  /-- Soroban `sendTransaction` threw. -/
  sendRaise : Bool
  /-- `sendResult.status`. -/
  sendStatus : SendStatus
  /-- `sendResult.hash`. -/
  sendHash : List Char
  /-- outcome of `pollTransaction`. -/
  poll : PollOutcome
  deriving DecidableEq

/-- A ledger submission performed by `settle` (polling is not a
submission).  The fee-bump effect stands for the submission attempt of the
fee-bumped envelope (its `raise` may also come from assembly). -/
inductive LedgerEffect where
  | horizonSubmitFeeBump
  | horizonSubmitDirect
  | sorobanSend
  deriving DecidableEq

/-- A failed `SettleResponse` with the given reason and transaction field. -/
def settleFail (r : SettleErrorReason) (payer tx network : List Char) :
    SettleResponse :=
  { success := false, errorReason := some r, payer := payer,
    transaction := tx, network := network }

/-- `settleNativeXlm`: parse the signed XDR, then submit fee-bumped (key
configured) or directly; the fee-bump catch returns
`settle_exact_stellar_fee_bump_failed`, the outer catch
`settle_exact_stellar_transaction_failed`. -/
def settleNativeXlm (env : SettleEnv) (payer network : List Char) :
    SettleResponse × List LedgerEffect :=
  match env.parseOk with
  | none => (settleFail .invalidXdr payer [] network, [])
  | some _ =>
      if env.facilitatorKey then
        match env.feeBump with
        | .ok h =>
            ({ success := true, errorReason := none, payer := payer,
               transaction := h, network := network }, [.horizonSubmitFeeBump])
        | .raise =>
            (settleFail .feeBumpFailed payer [] network, [.horizonSubmitFeeBump])
      else
        match env.direct with
        | .ok h =>
            ({ success := true, errorReason := none, payer := payer,
               transaction := h, network := network }, [.horizonSubmitDirect])
        | .raise =>
            (settleFail .transactionFailed payer [] network, [.horizonSubmitDirect])

/-- `settleSacToken`: submit the client's signed contract invocation over
Soroban RPC and poll for confirmation.  A non-`PENDING` send status fails;
a successful poll succeeds; a failed final status fails carrying the hash;
and a polling error returns success with the hash even though acceptance
was never observed (the source comments this as "the transaction likely
went through"). -/
def settleSacToken (env : SettleEnv) (payer network : List Char) :
    SettleResponse × List LedgerEffect :=
  if !env.sacParseOk then (settleFail .transactionFailed payer [] network, [])
  else if env.sendRaise then
    (settleFail .transactionFailed payer [] network, [.sorobanSend])
  else if env.sendStatus ≠ .pending then
    (settleFail .transactionFailed payer [] network, [.sorobanSend])
  else
    match env.poll with
    | .success =>
        ({ success := true, errorReason := none, payer := payer,
           transaction := env.sendHash, network := network }, [.sorobanSend])
    | .failedStatus =>
        ({ success := false, errorReason := some .transactionFailed,
           payer := payer, transaction := env.sendHash, network := network },
         [.sorobanSend])
    | .raise =>
        ({ success := true, errorReason := none, payer := payer,
           transaction := env.sendHash, network := network }, [.sorobanSend])

/-- The facilitator `settle` operation (`settle.ts`): network and
signed-transaction presence checks, then the asset-directed submission.
The second component lists the ledger submissions performed. -/
def settle (payload : PaymentPayload) (req : PaymentRequirements)
    (env : SettleEnv) : SettleResponse × List LedgerEffect :=
  let payer := payload.payload.sourceAccount
  let network := payload.network
  if !env.networkKnown then
    (settleFail .invalidNetwork payer [] network, [])
  else
    match payload.payload.signedTxXdr with
    | none => (settleFail .missingSignedTxXdr payer [] network, [])
    | some _ =>
        if req.asset = "native".toList then settleNativeXlm env payer network
        else settleSacToken env payer network

/-- Modelled from the spec: the facilitator's verify operation is not under
`src/`; this is its amount cross-check, "`amount ≥
requirements.maxAmountRequired` (payer may overpay; never underpay)" — an
underpaying payload fails verification with
`invalid_exact_stellar_payload_amount_mismatch`. -/
def specVerifyUnderpaid (payload : PaymentPayload)
    (req : PaymentRequirements) : Bool :=
  digitsVal 0 payload.payload.amount < digitsVal 0 req.maxAmountRequired

/-! ## The gate middleware (`middleware.ts`, buffered revision)

After a valid verification the middleware intercepts `writeHead`, `write`
and `end`, queues the handler's calls, and decides after the handler
returns: replay as-is on handler status `≥ 400` (no settlement), otherwise
settle and either attach the `X-PAYMENT-RESPONSE` header and replay, or
discard the buffer and answer `402`.  Verification transport errors reach
the outer catch and answer `500`.

`GateAction.respondJson s e` abstracts `res.status(s).json(body)` to the
status and the body's `error` field; `setPaymentResponseHeader` carries the
fields whose encoded JSON becomes the `X-PAYMENT-RESPONSE` value. -/

/-- One call the protected handler makes on the wrapped response sink. -/
inductive BufferedCall where
  | writeHead (status : Nat) (headers : List (List Char × List Char))
  | write (chunk : List Nat)
  | endCall (chunk : Option (List Nat))
  deriving DecidableEq

/-- The handler ran to completion: the sink calls it made, in order, and
`res.statusCode` once `next()` resolved. -/
structure HandlerRun where
  calls : List BufferedCall
  finalStatus : Nat
  deriving DecidableEq

/-- The protected handler either runs to completion or throws. -/
inductive HandlerOutcome where
  | runs (run : HandlerRun)
  | raise
  deriving DecidableEq

/-- The facilitator client's `verify` either returns a result or throws
(transport error). -/
inductive VerifyOutcome where
  | ok (r : VerifyResponse)
  | raise
  deriving DecidableEq

/-- The facilitator client's `settle` either returns a result or throws
(transport error).  Its `errorReason` is the wire string here. -/
structure GateSettleResponse where
  success : Bool
  errorReason : Option (List Char)
  payer : List Char
  transaction : List Char
  network : List Char
  deriving DecidableEq

/-- Outcome of the gate's `settle` round-trip. -/
inductive GateSettleOutcome where
  | ok (r : GateSettleResponse)
  | raise
  deriving DecidableEq

/-- A client-visible action of the gate. -/
inductive GateAction where
  /-- the request was not protected; control passed through untouched. -/
  | passUnprotected
  /-- the browser paywall HTML, status 402. -/
  | paywallHtml
  /-- `res.status(status).json(...)` with the given `error` field. -/
  | respondJson (status : Nat) (error : List Char)
  /-- `res.set("X-PAYMENT-RESPONSE", encodePaymentHeader({success: true,
  transaction, network, payer}))`. -/
  | setPaymentResponseHeader (transaction network payer : List Char)
  /-- a buffered handler call replayed to the real sink. -/
  | released (call : BufferedCall)
  deriving DecidableEq

/-- The gate's observable behaviour on one request. -/
structure GateResult where
  actions : List GateAction
  settleCalled : Bool
  deriving DecidableEq

/-- Inputs of one request: the HTTP request shape and the oracles for the
decode, verify, handler and settle steps. -/
structure GateRequest where
  path : List Char
  method : List Char
  xPaymentHeader : Option (List Char)
  /-- `isBrowserRequest`: Accept includes text/html and UA looks like a
  browser. -/
  browser : Bool
  /-- `decodePaymentHeader` succeeded on the carried header. -/
  decodeOk : Bool
  verify : VerifyOutcome
  handler : HandlerOutcome
  settleOut : GateSettleOutcome

/-- The payment middleware handler (`paymentMiddlewareHandler`): route
match, challenge emission, decode, verify, buffered handler execution, and
the post-route settlement decision. -/
def paymentMiddlewareHandler (patterns : List RoutePattern)
    (req : GateRequest) : GateResult :=
  match findMatchingRoute patterns req.path req.method with
  | none => { actions := [.passUnprotected], settleCalled := false }
  | some _ =>
      match req.xPaymentHeader with
      | none =>
          if req.browser then { actions := [.paywallHtml], settleCalled := false }
          else
            { actions := [.respondJson 402 ("Payment Required".toList)],
              settleCalled := false }
      | some _ =>
          if !req.decodeOk then
            { actions := [.respondJson 402 ("Invalid payment header".toList)],
              settleCalled := false }
          else
            match req.verify with
            | .raise =>
                { actions := [.respondJson 500 ("Payment verification error".toList)],
                  settleCalled := false }
            | .ok vr =>
                if !vr.isValid then
                  { actions := [.respondJson 402
                      (vr.invalidReason.getD ("Payment verification failed".toList))],
                    settleCalled := false }
                else
                  match req.handler with
                  | .raise =>
                      -- the outer catch runs `res.status(500).json(...)`, but
                      -- `json` ends through the still-intercepted `end`, so the
                      -- buffered bytes are never released: nothing reaches the
                      -- client.
                      { actions := [], settleCalled := false }
                  | .runs run =>
                      if 400 ≤ run.finalStatus then
                        { actions := run.calls.map .released,
                          settleCalled := false }
                      else
                        match req.settleOut with
                        | .raise =>
                            { actions := [.respondJson 402
                                ("Payment settlement failed".toList)],
                              settleCalled := true }
                        | .ok sr =>
                            if sr.success then
                              { actions :=
                                  .setPaymentResponseHeader sr.transaction
                                    sr.network sr.payer ::
                                  run.calls.map .released,
                                settleCalled := true }
                            else
                              { actions := [.respondJson 402
                                  (sr.errorReason.getD
                                    ("Payment settlement failed".toList))],
                                settleCalled := true }

/-! ## `signPaymentHeader` for SAC tokens (`signPaymentHeader.ts`) -/

/-- A SAC token payload prepared by `preparePaymentHeader`: the unsigned
transaction XDR (with auth entries from simulation). -/
structure SacTokenPayload where
  x402Version : Nat
  scheme : List Char
  network : List Char
  transaction : List Char
  deriving DecidableEq

/-- The two signer variants. -/
inductive StellarSigner where
  | keypair
  | freighter
  deriving DecidableEq

/-- Oracles for the signing SDK calls. -/
structure SignEnv where
  /-- `STELLAR_NETWORKS[network]` is defined. -/
  networkKnown : Bool
  /-- `signWithKeypair`: unsigned XDR to signed XDR. -/
  signKeypair : List Char → List Char
  /-- `signWithFreighter`: unsigned XDR to signed XDR. -/
  signFreighter : List Char → List Char
  /-- `TransactionBuilder.fromXDR(signed).source` (the inner transaction's
  source for a fee-bump envelope). -/
  parseSource : List Char → List Char

/-- `signSacTokenPayload`: sign the prepared transaction, re-parse it for
its source account, and assemble the `PaymentPayload` with placeholder
metadata (the transfer's amount, destination and asset live only inside
the signed transaction). -/
def signSacTokenPayload (p : SacTokenPayload) (signer : StellarSigner)
    (env : SignEnv) : PaymentPayload :=
  let signedTxXdr :=
    match signer with
    | .keypair => env.signKeypair p.transaction
    | .freighter => env.signFreighter p.transaction
  { x402Version := p.x402Version
    scheme := p.scheme
    network := p.network
    payload :=
      { signedTxXdr := some signedTxXdr
        sourceAccount := env.parseSource signedTxXdr
        amount := "0".toList
        destination := []
        asset := []
        validUntilLedger := 0
        nonce := [] } }

/-- `signPaymentHeader` restricted to SAC payloads: the unsupported-network
throw, then `signSacTokenPayload`. -/
def signPaymentHeaderSac (p : SacTokenPayload) (signer : StellarSigner)
    (env : SignEnv) : Option PaymentPayload :=
  if !env.networkKnown then none
  else some (signSacTokenPayload p signer env)

/-! ## The header envelope: JSON, UTF-8 and base64

`encodePaymentHeader(payload)` is `safeBase64Encode(JSON.stringify(payload))`
and `decodePaymentHeader(header)` is `JSON.parse(safeBase64Decode(header))`.
The JSON values that flow through the envelope are objects of strings and
non-negative integer numbers (the payload schema), so the JSON model
carries exactly those three forms.  `JSON.stringify` is modelled by
`jsonStringify` (ECMA-262 quoting: `"`, `\`, the five short escapes, and
`\u00XX` for remaining control characters), and `JSON.parse` by
`jsonParse` (whitespace-tolerant, full-consumption, rejecting raw control
characters in strings).  Strings are sequences of Unicode scalar values
(`Char`); surrogate-pair escapes are outside the modelled value space. -/

mutual
/-- A JSON value of the payload sublanguage: strings, non-negative integer
numbers, and objects. -/
inductive Json where
  | str (s : List Char)
  | nat (n : Nat)
  | obj (fields : JsonFields)

/-- The ordered members of a JSON object. -/
inductive JsonFields where
  | nil
  | cons (key : List Char) (value : Json) (rest : JsonFields)
end

/-- A lowercase hexadecimal digit. -/
def hexDigit (n : Nat) : Char :=
  if n < 10 then digitCh n else Char.ofNat (87 + n % 16)

/-- `QuoteJSONString` escaping of one character. -/
def escapeChar (c : Char) : List Char :=
  if c = '"' then ['\\', '"']
  else if c = '\\' then ['\\', '\\']
  else if c.toNat = 8 then ['\\', 'b']
  else if c.toNat = 9 then ['\\', 't']
  else if c.toNat = 10 then ['\\', 'n']
  else if c.toNat = 12 then ['\\', 'f']
  else if c.toNat = 13 then ['\\', 'r']
  else if c.toNat < 32 then
    ['\\', 'u', '0', '0', hexDigit (c.toNat / 16), hexDigit (c.toNat % 16)]
  else [c]

/-- A quoted JSON string literal. -/
def quoteStr (s : List Char) : List Char :=
  '"' :: s.flatMap escapeChar ++ ['"']

mutual
/-- `JSON.stringify` on the payload sublanguage (no spacing argument). -/
def jsonStringify : Json → List Char
  | .str s => quoteStr s
  | .nat n => natToChars n
  | .obj fs => lcurl :: jsonStringifyFields fs ++ [rcurl]

/-- The comma-separated `"key":value` members of an object. -/
def jsonStringifyFields : JsonFields → List Char
  | .nil => []
  | .cons k v .nil => quoteStr k ++ ':' :: jsonStringify v
  | .cons k v rest =>
      quoteStr k ++ ':' :: jsonStringify v ++ ',' :: jsonStringifyFields rest
end

/-- JSON whitespace. -/
def isJsonWs (c : Char) : Bool :=
  c = ' ' || c.toNat = 9 || c.toNat = 10 || c.toNat = 13

/-- Skip JSON whitespace. -/
def skipWs (s : List Char) : List Char := s.dropWhile isJsonWs

/-- The value of a hexadecimal digit. -/
def hexVal (c : Char) : Option Nat :=
  if 48 ≤ c.toNat ∧ c.toNat ≤ 57 then some (c.toNat - 48)
  else if 97 ≤ c.toNat ∧ c.toNat ≤ 102 then some (c.toNat - 87)
  else if 65 ≤ c.toNat ∧ c.toNat ≤ 70 then some (c.toNat - 55)
  else none

/-- Parse the body of a string literal after its opening quote: unescape
until the closing quote, rejecting raw control characters. -/
def parseStringBody : List Char → Option (List Char × List Char)
  | [] => none
  | c :: rest =>
      if c = '"' then some ([], rest)
      else if c = '\\' then
        match rest with
        | [] => none
        | e :: rest2 =>
            if e = '"' || e = '\\' || e = '/' then
              (parseStringBody rest2).map fun (s, r) => (e :: s, r)
            else if e = 'b' then
              (parseStringBody rest2).map fun (s, r) => (Char.ofNat 8 :: s, r)
            else if e = 't' then
              (parseStringBody rest2).map fun (s, r) => (Char.ofNat 9 :: s, r)
            else if e = 'n' then
              (parseStringBody rest2).map fun (s, r) => (Char.ofNat 10 :: s, r)
            else if e = 'f' then
              (parseStringBody rest2).map fun (s, r) => (Char.ofNat 12 :: s, r)
            else if e = 'r' then
              (parseStringBody rest2).map fun (s, r) => (Char.ofNat 13 :: s, r)
            else if e = 'u' then
              match rest2 with
              | h1 :: h2 :: h3 :: h4 :: rest3 =>
                  match hexVal h1, hexVal h2, hexVal h3, hexVal h4 with
                  | some v1, some v2, some v3, some v4 =>
                      (parseStringBody rest3).map fun (s, r) =>
                        (Char.ofNat (v1 * 4096 + v2 * 256 + v3 * 16 + v4) :: s, r)
                  | _, _, _, _ => none
              | _ => none
            else none
      else if c.toNat < 32 then none
      else (parseStringBody rest).map fun (s, r) => (c :: s, r)

/-- Consume a run of decimal digits, extending the accumulator. -/
def parseDigitsAcc (acc : Nat) : List Char → Nat × List Char
  | [] => (acc, [])
  | c :: cs =>
      if isDigitCh c then parseDigitsAcc (acc * 10 + (c.toNat - 48)) cs
      else (acc, c :: cs)

mutual
/-- Parse one JSON value of the payload sublanguage (fuel bounds the
recursion; `jsonParse` supplies enough for any input). -/
def parseJsonVal : Nat → List Char → Option (Json × List Char)
  | 0, _ => none
  | fuel + 1, s =>
      match skipWs s with
      | [] => none
      | c :: rest =>
          if c = '"' then
            (parseStringBody rest).map fun (str, r) => (Json.str str, r)
          else if isDigitCh c then
            let (n, r) := parseDigitsAcc 0 (c :: rest)
            some (Json.nat n, r)
          else if c = lcurl then
            match skipWs rest with
            | [] => none
            | d :: after =>
                if d = rcurl then some (Json.obj .nil, after)
                else
                  match parseJsonFields fuel rest with
                  | some (fs, r) => some (Json.obj fs, r)
                  | none => none
          else none

/-- Parse the members of a non-empty object, consuming the closing
brace. -/
def parseJsonFields : Nat → List Char → Option (JsonFields × List Char)
  | 0, _ => none
  | fuel + 1, s =>
      match skipWs s with
      | c :: rest =>
          if c = '"' then
            match parseStringBody rest with
            | some (key, afterKey) =>
                match skipWs afterKey with
                | colon :: afterColon =>
                    if colon = ':' then
                      match parseJsonVal fuel afterColon with
                      | some (v, afterVal) =>
                          match skipWs afterVal with
                          | sep :: afterSep =>
                              if sep = ',' then
                                match parseJsonFields fuel afterSep with
                                | some (fs, r) => some (.cons key v fs, r)
                                | none => none
                              else if sep = rcurl then
                                some (.cons key v .nil, afterSep)
                              else none
                          | [] => none
                      | none => none
                    else none
                | [] => none
            | none => none
          else none
      | [] => none
end

/-- `JSON.parse` on the payload sublanguage: parse one value and require
only whitespace to remain. -/
def jsonParse (s : List Char) : Option Json :=
  match parseJsonVal (s.length + 1) s with
  | some (j, rest) => if (skipWs rest).isEmpty then some j else none
  | none => none

/-- Decimal digits of a natural number, most significant first (the
specification of `natToChars` used by the parsing proofs). -/
def digitsOf (n : Nat) : List Char :=
  if n < 10 then [digitCh n] else digitsOf (n / 10) ++ [digitCh (n % 10)]
  termination_by n
  decreasing_by exact Nat.div_lt_self (by omega) (by omega)

/-- The list does not begin with a decimal digit. -/
def noDigitHead : List Char → Prop
  | [] => True
  | c :: _ => isDigitCh c = false

mutual
/-- Fuel sufficient for `parseJsonVal` on this value's rendering. -/
def Json.weight : Json → Nat
  | .str _ => 1
  | .nat _ => 1
  | .obj fs => 1 + fs.weight

/-- Fuel sufficient for `parseJsonFields` on these members' rendering. -/
def JsonFields.weight : JsonFields → Nat
  | .nil => 1
  | .cons _ v r => 1 + v.weight + r.weight
end

/-! ### UTF-8 (`Buffer.from(str, "utf-8")` and back) -/

/-- UTF-8 bytes of one Unicode scalar value. -/
def utf8EncodeChar (c : Char) : List Nat :=
  let n := c.toNat
  if n < 0x80 then [n]
  else if n < 0x800 then [0xC0 + n / 64, 0x80 + n % 64]
  else if n < 0x10000 then
    [0xE0 + n / 4096, 0x80 + n / 64 % 64, 0x80 + n % 64]
  else
    [0xF0 + n / 262144, 0x80 + n / 4096 % 64, 0x80 + n / 64 % 64,
     0x80 + n % 64]

/-- UTF-8 bytes of a string. -/
def utf8Encode (s : List Char) : List Nat := s.flatMap utf8EncodeChar

/-- Is `b` a UTF-8 continuation byte? -/
def isCont (b : Nat) : Bool := 0x80 ≤ b && b < 0xC0

/-- Decode one UTF-8 scalar from the front of the byte list: the character
and the remaining bytes, or `none` on an invalid sequence. -/
def utf8DecodeOne : List Nat → Option (Char × List Nat)
  | [] => none
  | b :: rest =>
      if b < 0x80 then some (Char.ofNat b, rest)
      else if b < 0xE0 then
        match rest with
        | b2 :: rest2 =>
            if 0xC0 ≤ b && isCont b2 then
              let n := (b - 0xC0) * 64 + (b2 - 0x80)
              if 0x80 ≤ n then some (Char.ofNat n, rest2) else none
            else none
        | [] => none
      else if b < 0xF0 then
        match rest with
        | b2 :: b3 :: rest2 =>
            if isCont b2 && isCont b3 then
              let n := (b - 0xE0) * 4096 + (b2 - 0x80) * 64 + (b3 - 0x80)
              if 0x800 ≤ n ∧ ¬(0xD800 ≤ n ∧ n < 0xE000) then
                some (Char.ofNat n, rest2)
              else none
            else none
        | _ => none
      else if b < 0xF8 then
        match rest with
        | b2 :: b3 :: b4 :: rest2 =>
            if isCont b2 && isCont b3 && isCont b4 then
              let n := (b - 0xF0) * 262144 + (b2 - 0x80) * 4096 +
                (b3 - 0x80) * 64 + (b4 - 0x80)
              if 0x10000 ≤ n ∧ n < 0x110000 then
                some (Char.ofNat n, rest2)
              else none
            else none
        | _ => none
      else none

/-- Decode scalars until the input is exhausted; `fuel` bounds the number
of characters (each consumes at least one byte). -/
def utf8DecodeCore : Nat → List Nat → Option (List Char)
  | _, [] => some []
  | 0, _ :: _ => none
  | fuel + 1, b :: rest =>
      match utf8DecodeOne (b :: rest) with
      | some (c, rest2) => (utf8DecodeCore fuel rest2).map fun s => c :: s
      | none => none

/-- Strict UTF-8 decoding (on invalid input the Node decoder substitutes
U+FFFD; the model rejects instead, which agrees with it on all valid
input, in particular on everything `utf8Encode` produces). -/
def utf8Decode (bs : List Nat) : Option (List Char) :=
  utf8DecodeCore bs.length bs

/-! ### Base64 (`Buffer.toString("base64")` and back) -/

/-- The base64 alphabet. -/
def b64Char (n : Nat) : Char :=
  if n < 26 then Char.ofNat (65 + n)
  else if n < 52 then Char.ofNat (97 + (n - 26))
  else if n < 62 then Char.ofNat (48 + (n - 52))
  else if n = 62 then '+'
  else '/'

/-- The value of a base64 alphabet character. -/
def b64Val (c : Char) : Option Nat :=
  if 65 ≤ c.toNat ∧ c.toNat ≤ 90 then some (c.toNat - 65)
  else if 97 ≤ c.toNat ∧ c.toNat ≤ 122 then some (c.toNat - 71)
  else if 48 ≤ c.toNat ∧ c.toNat ≤ 57 then some (c.toNat + 4)
  else if c = '+' then some 62
  else if c = '/' then some 63
  else none

/-- Standard base64 with padding, three bytes to four characters. -/
def b64Encode : List Nat → List Char
  | [] => []
  | [a] => [b64Char (a / 4), b64Char (a % 4 * 16), '=', '=']
  | [a, b] => [b64Char (a / 4), b64Char (a % 4 * 16 + b / 16),
               b64Char (b % 16 * 4), '=']
  | a :: b :: c :: rest =>
      b64Char (a / 4) :: b64Char (a % 4 * 16 + b / 16) ::
      b64Char (b % 16 * 4 + c / 64) :: b64Char (c % 64) :: b64Encode rest

/-- Base64 decoding of well-padded input: a final `xx==` quartet encodes
one byte, a final `xxx=` quartet two bytes, any other quartet three. -/
def b64Decode : List Char → Option (List Nat)
  | [] => some []
  | c1 :: c2 :: c3 :: c4 :: rest =>
      if c3 = '=' ∧ c4 = '=' ∧ rest.isEmpty then
        match b64Val c1, b64Val c2 with
        | some v1, some v2 => some [v1 * 4 + v2 / 16]
        | _, _ => none
      else if c4 = '=' ∧ rest.isEmpty then
        match b64Val c1, b64Val c2, b64Val c3 with
        | some v1, some v2, some v3 =>
            some [v1 * 4 + v2 / 16, v2 % 16 * 16 + v3 / 4]
        | _, _, _ => none
      else
        match b64Val c1, b64Val c2, b64Val c3, b64Val c4 with
        | some v1, some v2, some v3, some v4 =>
            match b64Decode rest with
            | some bs =>
                some ((v1 * 4 + v2 / 16) :: (v2 % 16 * 16 + v3 / 4) ::
                  (v3 % 4 * 64 + v4) :: bs)
            | none => none
        | _, _, _, _ => none
  | _ => none

/-! ### The header envelope (`base64.ts`) -/

/-- `safeBase64Encode`: UTF-8 bytes of the string, base64-encoded. -/
def safeBase64Encode (s : List Char) : List Char := b64Encode (utf8Encode s)

/-- `safeBase64Decode`: base64 to bytes to UTF-8 text (`none` models the
throw on invalid input). -/
def safeBase64Decode (s : List Char) : Option (List Char) :=
  match b64Decode s with
  | none => none
  | some bytes => utf8Decode bytes

/-- `encodePaymentHeader`: base64 of the JSON text of the value. -/
def encodePaymentHeader (j : Json) : List Char :=
  safeBase64Encode (jsonStringify j)

/-- `decodePaymentHeader`: decode base64, then `JSON.parse`. -/
def decodePaymentHeader (header : List Char) : Option Json :=
  match safeBase64Decode header with
  | none => none
  | some text => jsonParse text

/-! ### Payloads as JSON values -/

/-- The JSON form of the inner `payload` object, keys in the order of the
source object literal (`JSON.stringify` omits an absent `signedTxXdr`, as
`undefined` members are skipped). -/
def StellarPayload.toJson (p : StellarPayload) : JsonFields :=
  let tail : JsonFields :=
    .cons ("sourceAccount".toList) (.str p.sourceAccount)
      (.cons ("amount".toList) (.str p.amount)
        (.cons ("destination".toList) (.str p.destination)
          (.cons ("asset".toList) (.str p.asset)
            (.cons ("validUntilLedger".toList) (.nat p.validUntilLedger)
              (.cons ("nonce".toList) (.str p.nonce) .nil)))))
  match p.signedTxXdr with
  | some x => .cons ("signedTxXdr".toList) (.str x) tail
  | none => tail

/-- The JSON form of a `PaymentPayload`. -/
def PaymentPayload.toJson (p : PaymentPayload) : Json :=
  .obj (.cons ("x402Version".toList) (.nat p.x402Version)
    (.cons ("scheme".toList) (.str p.scheme)
      (.cons ("network".toList) (.str p.network)
        (.cons ("payload".toList) (.obj p.payload.toJson) .nil))))

/-- Read the inner `payload` object back from its JSON form. -/
def StellarPayload.ofJson : JsonFields → Option StellarPayload
  | .cons k1 (.str x) rest =>
      if k1 = "signedTxXdr".toList then
        match StellarPayload.ofJson rest with
        | some p =>
            match p.signedTxXdr with
            | none => some { p with signedTxXdr := some x }
            | some _ => none
        | none => none
      else
        match k1, rest with
        | _, .cons k2 (.str amount) (.cons k3 (.str destination)
            (.cons k4 (.str asset) (.cons k5 (.nat validUntilLedger)
              (.cons k6 (.str nonce) .nil)))) =>
            if k1 = "sourceAccount".toList ∧ k2 = "amount".toList ∧
                k3 = "destination".toList ∧ k4 = "asset".toList ∧
                k5 = "validUntilLedger".toList ∧ k6 = "nonce".toList then
              some { signedTxXdr := none, sourceAccount := x,
                     amount := amount, destination := destination,
                     asset := asset, validUntilLedger := validUntilLedger,
                     nonce := nonce }
            else none
        | _, _ => none
  | _ => none

/-- Read a `PaymentPayload` back from its JSON form. -/
def PaymentPayload.ofJson : Json → Option PaymentPayload
  | .obj (.cons k1 (.nat x402Version) (.cons k2 (.str scheme)
      (.cons k3 (.str network) (.cons k4 (.obj inner) .nil)))) =>
      if k1 = "x402Version".toList ∧ k2 = "scheme".toList ∧
          k3 = "network".toList ∧ k4 = "payload".toList then
        match StellarPayload.ofJson inner with
        | some sp =>
            some { x402Version := x402Version, scheme := scheme,
                   network := network, payload := sp }
        | none => none
      else none
  | _ => none

/-- Replace the metadata fields of the inner payload (everything except the
signed transaction and the source account). -/
def StellarPayload.withMeta (sp : StellarPayload) (amount destination asset :
    List Char) (validUntilLedger : Nat) (nonce : List Char) : StellarPayload :=
  { sp with amount := amount, destination := destination, asset := asset,
            validUntilLedger := validUntilLedger, nonce := nonce }

/-- Replace the metadata fields of a payment payload. -/
def PaymentPayload.withMeta (p : PaymentPayload) (amount destination asset :
    List Char) (validUntilLedger : Nat) (nonce : List Char) : PaymentPayload :=
  { p with payload :=
      (p.payload.withMeta amount destination asset validUntilLedger nonce) }

/-! ## Concrete instances

Closed inputs used by counterexamples and witnesses. -/

/-- The spec's route-specificity example: `/a/*` at 1 XLM, `/a/b` at 2 XLM,
in that order. -/
def rulesAB : List (List Char × RouteConfig) :=
  [("/a/*".toList, ⟨.str "1.00".toList⟩),
   ("/a/b".toList, ⟨.str "2.00".toList⟩)]

/-- The compiled patterns of `rulesAB`. -/
def patternsAB : List RoutePattern :=
  (compileRoutePatterns rulesAB).getD []

/-- The compiled `/a/*` rule, written out. -/
def patternAStar : RoutePattern :=
  { verb := ['*'], src := regexSource ("/a/*".toList)
    toks := tokenizeGlob (("/a/*".toList).length + 1) ("/a/*".toList)
    config := ⟨.str "1.00".toList⟩ }

/-- The compiled `/a/b` rule, written out. -/
def patternAB : RoutePattern :=
  { verb := ['*'], src := regexSource ("/a/b".toList)
    toks := tokenizeGlob (("/a/b".toList).length + 1) ("/a/b".toList)
    config := ⟨.str "2.00".toList⟩ }

/-- A single protected route for middleware scenarios. -/
def routesDemo : List (List Char × RouteConfig) :=
  [("/demo".toList, ⟨.num 100⟩)]

/-- The compiled patterns of `routesDemo`. -/
def patternsDemo : List RoutePattern :=
  (compileRoutePatterns routesDemo).getD []

/-- The single compiled pattern of `routesDemo`, written out. -/
def patternDemo : RoutePattern :=
  { verb := ['*'], src := regexSource ("/demo".toList)
    toks := tokenizeGlob (("/demo".toList).length + 1) ("/demo".toList)
    config := ⟨.num 100⟩ }

/-- A handler run writing one chunk and ending with status 200. -/
def runOk : HandlerRun :=
  { calls := [.writeHead 200 [], .write [111, 107], .endCall none]
    finalStatus := 200 }

/-- A request to the protected route whose settlement round-trip throws. -/
def reqSettleRaise : GateRequest :=
  { path := "/demo".toList, method := "GET".toList
    xPaymentHeader := some ("hdr".toList), browser := false, decodeOk := true
    verify := .ok { isValid := true, invalidReason := none, payer := some ("G1".toList) }
    handler := .runs runOk
    settleOut := .raise }

/-- A request to the protected route whose verification round-trip throws. -/
def reqVerifyRaise : GateRequest :=
  { reqSettleRaise with verify := .raise }

/-- A request to the protected route whose settlement returns
`success: false`. -/
def reqSettleFails : GateRequest :=
  { reqSettleRaise with
      settleOut := .ok
        { success := false, errorReason := some ("settle_exact_stellar_transaction_failed".toList)
          payer := "G1".toList, transaction := [], network := "stellar-testnet".toList } }

/-- A request to the protected route whose handler fails with status 500. -/
def reqHandlerFails : GateRequest :=
  { reqSettleRaise with
      handler := .runs
        { calls := [.writeHead 500 [], .write [101, 114, 114], .endCall none]
          finalStatus := 500 } }

/-- A fully paying native payload: amount `10000000`. -/
def pValid : PaymentPayload :=
  { x402Version := 1, scheme := "exact".toList
    network := "stellar-testnet".toList
    payload :=
      { signedTxXdr := some ("XDR1".toList), sourceAccount := "GSRC".toList
        amount := "10000000".toList, destination := "GDST".toList
        asset := "native".toList, validUntilLedger := 500, nonce := "n0".toList } }

/-- `pValid` with no signed transaction. -/
def pNoXdr : PaymentPayload :=
  { pValid with payload := { pValid.payload with signedTxXdr := none } }

/-- An underpaying native payload: amount `9999999`. -/
def pUnder : PaymentPayload :=
  { x402Version := 1, scheme := "exact".toList
    network := "stellar-testnet".toList
    payload :=
      { signedTxXdr := some ("XDR0".toList), sourceAccount := "GSRC".toList
        amount := "9999999".toList, destination := "GDST".toList
        asset := "native".toList, validUntilLedger := 500, nonce := "n1".toList } }

/-- Native requirements asking for `10000000` stroops. -/
def rNative : PaymentRequirements :=
  { scheme := "exact".toList, network := "stellar-testnet".toList
    maxAmountRequired := "10000000".toList, resource := "http://h/demo".toList
    description := [], mimeType := "application/json".toList
    payTo := "GDST".toList, maxTimeoutSeconds := 300, asset := "native".toList }

/-- A settle environment where parsing and direct Horizon submission
succeed and no facilitator key is configured. -/
def envAccept : SettleEnv :=
  { networkKnown := true, facilitatorKey := false
    parseOk := some ("feedc0de".toList), feeBump := .raise
    direct := .ok ("feedc0de".toList), sacParseOk := true, sendRaise := false
    sendStatus := .pending, sendHash := [], poll := .success }

/-- `envAccept` with an unknown network tag. -/
def envNoNet : SettleEnv := { envAccept with networkKnown := false }

/-- `envAccept` where XDR parsing throws. -/
def envParseFail : SettleEnv := { envAccept with parseOk := none }

/-- A SAC settle environment where submission is `PENDING` and polling
throws. -/
def envSacPollRaise : SettleEnv :=
  { networkKnown := true, facilitatorKey := false
    parseOk := none, feeBump := .raise, direct := .raise
    sacParseOk := true, sendRaise := false, sendStatus := .pending
    sendHash := "sachash".toList, poll := .raise }

/-- A SAC payload/requirements pair (contract asset). -/
def pSac : PaymentPayload :=
  { pUnder with payload := { pUnder.payload with asset := [] } }

/-- Requirements on a contract asset. -/
def rSac : PaymentRequirements :=
  { rNative with asset := "CCONTRACT".toList, maxAmountRequired := "500000".toList }

/-- A prepared SAC token payload. -/
def sacPrepared : SacTokenPayload :=
  { x402Version := 1, scheme := "exact".toList
    network := "stellar-testnet".toList, transaction := "TXDR".toList }

/-- A signing environment with concrete oracle functions. -/
def signEnvDemo : SignEnv :=
  { networkKnown := true
    signKeypair := fun s => 'S' :: s
    signFreighter := fun s => 'F' :: s
    parseSource := fun _ => "GSIGNER".toList }

end StellarX402

namespace StellarX402

/-! # Theorems -/

set_option maxRecDepth 80000

/-! ## Route matching -/

/-- The reduction step of `findMatchingRoute` keeps a pattern of maximal
source length, preferring the earlier one on ties. -/
theorem foldl_longest_spec (ms : List RoutePattern) :
    ∀ m : RoutePattern,
      (ms.foldl (fun a b => if a.src.length < b.src.length then b else a) m)
        ∈ m :: ms ∧
      ∀ x ∈ m :: ms, x.src.length ≤
        (ms.foldl (fun a b => if a.src.length < b.src.length then b else a)
          m).src.length := by
  induction ms with
  | nil =>
      intro m
      refine ⟨List.mem_singleton_self m, ?_⟩
      intro x hx
      rw [List.mem_singleton] at hx
      rw [hx]
      exact le_rfl
  | cons b ms ih =>
      intro m
      rw [List.foldl_cons]
      obtain ⟨hmem, hbound⟩ :=
        ih (if m.src.length < b.src.length then b else m)
      constructor
      · rcases List.mem_cons.mp hmem with heq | hmem2
        · by_cases hlt : m.src.length < b.src.length
          · rw [if_pos hlt] at heq ⊢
            rw [heq]
            exact List.mem_cons_of_mem m (List.mem_cons_self b ms)
          · rw [if_neg hlt] at heq ⊢
            rw [heq]
            exact List.mem_cons_self m (b :: ms)
        · exact List.mem_cons_of_mem m (List.mem_cons_of_mem b hmem2)
      · intro x hx
        have hhead : ∀ y : RoutePattern,
            y.src.length ≤
              (if m.src.length < b.src.length then b else m).src.length →
            y.src.length ≤ (ms.foldl
              (fun a b => if a.src.length < b.src.length then b else a)
              (if m.src.length < b.src.length then b else m)).src.length :=
          fun y hy => le_trans hy (hbound _ (List.mem_cons_self _ _))
        rcases List.mem_cons.mp hx with heq | hx2
        · subst heq
          refine hhead x ?_
          by_cases hlt : x.src.length < b.src.length
          · rw [if_pos hlt]; omega
          · rw [if_neg hlt]
        · rcases List.mem_cons.mp hx2 with heq | hx3
          · subst heq
            refine hhead x ?_
            by_cases hlt : m.src.length < x.src.length
            · rw [if_pos hlt]
            · rw [if_neg hlt]; omega
          · exact hbound x (List.mem_cons_of_mem _ hx3)

/-- **C6, amended.**  Among the rules whose pattern and verb match,
`findMatchingRoute` selects one whose *compiled regex source* is longest
(the earlier rule on ties).  Because `*` compiles to the three-character
`.*?`, source length is not specificity: with the rules `/a/*` and `/a/b`,
a request to `/a/b` selects the `/a/*` rule (its compiled source
`^\/a\/.*?$` is longer than `^\/a\/b$`). -/
theorem findMatchingRoute_selects_longest (ps : List RoutePattern)
    (path method : List Char) (rp : RoutePattern)
    (hfind : findMatchingRoute ps path method = some rp) :
    routeMatches rp (normalizePath path) (method.map Char.toUpper) = true ∧
    ∀ q ∈ ps,
      routeMatches q (normalizePath path) (method.map Char.toUpper) = true →
      q.src.length ≤ rp.src.length := by
  unfold findMatchingRoute at hfind
  cases hfil : ps.filter (fun q =>
      routeMatches q (normalizePath path) (method.map Char.toUpper)) with
  | nil => rw [hfil] at hfind; exact absurd hfind (by simp)
  | cons m ms =>
      rw [hfil] at hfind
      simp only [Option.some.injEq] at hfind
      obtain ⟨hmem, hbound⟩ := foldl_longest_spec ms m
      constructor
      · have : rp ∈ m :: ms := hfind ▸ hmem
        have : rp ∈ ps.filter _ := hfil ▸ this
        exact (List.mem_filter.mp this).2
      · intro q hq hmatch
        have hqf : q ∈ ps.filter (fun q =>
            routeMatches q (normalizePath path) (method.map Char.toUpper)) :=
          List.mem_filter.mpr ⟨hq, hmatch⟩
        rw [hfil] at hqf
        exact hfind ▸ hbound q hqf

/-- **C6, counterexample.**  With the rules `/a/*` (1 XLM) and `/a/b`
(2 XLM), a request to `/a/b` selects the `/a/*` rule, not the `/a/b`
rule. -/
theorem route_specificity_example_fails :
    (compileRoutePatterns rulesAB).bind (fun ps =>
      (findMatchingRoute ps ("/a/b".toList) ("GET".toList)).map
        RoutePattern.config) = some ⟨.str "1.00".toList⟩ ∧
    (⟨.str "1.00".toList⟩ : RouteConfig) ≠ ⟨.str "2.00".toList⟩ := by
  decide

/-- Witness for the amended C6: at the example rules, the selected `/a/*`
rule matches and its compiled source is at least as long as the matching
`/a/b` rule's. -/
theorem findMatchingRoute_selects_longest_witness :
    routeMatches patternAStar (normalizePath ("/a/b".toList))
      (("GET".toList).map Char.toUpper) = true ∧
    patternAB.src.length ≤ patternAStar.src.length := by
  have h := findMatchingRoute_selects_longest patternsAB
    ("/a/b".toList) ("GET".toList) patternAStar (by decide)
  exact ⟨h.1, h.2 patternAB (by decide) (by decide)⟩

/-! ## Price conversion -/

/-- **C7, counterexample.**  The decimal price `"19.99"` converts through
binary64 to `199899999` stroops, while exact decimal multiplication by
`10^7` truncates to `199900000`: the conversion is not exact decimal
arithmetic for every decimal-string price. -/
theorem priceToStroops_float_loss :
    priceToStroops (.str ("19.99".toList)) = some ("199899999".toList) ∧
    priceToStroopsSpec (.str ("19.99".toList)) = some ("199900000".toList) ∧
    priceToStroops (.str ("19.99".toList)) ≠
      priceToStroopsSpec (.str ("19.99".toList)) := by
  refine ⟨by decide, by decide, by decide⟩

/-- **C7, amended.**  A numeric price passes through unchanged; a decimal
string converts by `Math.floor(parseFloat(price) * 10^7)` in binary64
arithmetic, which agrees with exact decimal truncation on prices like
`"1.00"` and `"0.50"` but not on every decimal string (`"19.99"` yields
`199899999`). -/
theorem priceToStroops_binary64 :
    (∀ n : Int, priceToStroops (.num n) = some (intToChars n)) ∧
    priceToStroops (.str ("1.00".toList)) =
      priceToStroopsSpec (.str ("1.00".toList)) ∧
    priceToStroops (.str ("0.50".toList)) =
      priceToStroopsSpec (.str ("0.50".toList)) ∧
    priceToStroops (.str ("19.99".toList)) = some ("199899999".toList) := by
  refine ⟨fun n => rfl, by decide, by decide, by decide⟩

/-! ## The gate middleware -/

/-- **C5.**  For every request with a valid payment header whose protected
handler ends with status `≥ 400`, no settlement is attempted, the buffered
handler response is released exactly as written, and no `X-Payment-Response`
header is added. -/
theorem handler_error_releases_without_settlement
    (patterns : List RoutePattern) (req : GateRequest) (rp : RoutePattern)
    (h : List Char) (vr : VerifyResponse) (run : HandlerRun)
    (hmatch : findMatchingRoute patterns req.path req.method = some rp)
    (hhdr : req.xPaymentHeader = some h) (hdec : req.decodeOk = true)
    (hver : req.verify = .ok vr) (hvalid : vr.isValid = true)
    (hrun : req.handler = .runs run) (hstatus : 400 ≤ run.finalStatus) :
    paymentMiddlewareHandler patterns req =
      { actions := run.calls.map .released, settleCalled := false } ∧
    (∀ t n pa, GateAction.setPaymentResponseHeader t n pa ∉
      (paymentMiddlewareHandler patterns req).actions) := by
  have hres : paymentMiddlewareHandler patterns req =
      { actions := run.calls.map .released, settleCalled := false } := by
    unfold paymentMiddlewareHandler
    rw [hmatch, hhdr, hdec, hver, hrun]
    simp [hvalid, hstatus]
  refine ⟨hres, ?_⟩
  intro t n pa hmem
  rw [hres] at hmem
  simp only [List.mem_map] at hmem
  obtain ⟨c, _, hc⟩ := hmem
  exact GateAction.noConfusion hc

/-- Witness for C5 at a concrete request. -/
theorem handler_error_releases_without_settlement_witness :
    paymentMiddlewareHandler patternsDemo reqHandlerFails =
      { actions := [.released (.writeHead 500 []), .released (.write [101, 114, 114]),
                    .released (.endCall none)], settleCalled := false } := by
  have h := handler_error_releases_without_settlement patternsDemo reqHandlerFails
    patternDemo ("hdr".toList)
    { isValid := true, invalidReason := none, payer := some ("G1".toList) }
    { calls := [.writeHead 500 [], .write [101, 114, 114], .endCall none]
      finalStatus := 500 }
    (by decide) (by decide) (by decide) (by decide) (by decide) (by decide)
    (by decide)
  exact h.1

/-- **C1.**  For every request with a valid payment header whose settlement
returns `success: false`, no buffered handler byte reaches the client, the
buffer is discarded, and the gate responds `402` with the settlement
`errorReason`. -/
theorem no_body_when_settlement_fails
    (patterns : List RoutePattern) (req : GateRequest) (rp : RoutePattern)
    (h e : List Char) (vr : VerifyResponse) (run : HandlerRun)
    (sr : GateSettleResponse)
    (hmatch : findMatchingRoute patterns req.path req.method = some rp)
    (hhdr : req.xPaymentHeader = some h) (hdec : req.decodeOk = true)
    (hver : req.verify = .ok vr) (hvalid : vr.isValid = true)
    (hrun : req.handler = .runs run) (hstatus : run.finalStatus < 400)
    (hset : req.settleOut = .ok sr) (hfail : sr.success = false)
    (hreason : sr.errorReason = some e) :
    paymentMiddlewareHandler patterns req =
      { actions := [.respondJson 402 e], settleCalled := true } ∧
    (∀ c, GateAction.released c ∉ (paymentMiddlewareHandler patterns req).actions) := by
  have hres : paymentMiddlewareHandler patterns req =
      { actions := [.respondJson 402 e], settleCalled := true } := by
    unfold paymentMiddlewareHandler
    rw [hmatch, hhdr, hdec, hver, hrun, hset]
    simp [hvalid, Nat.not_le.mpr hstatus, hfail, hreason]
  refine ⟨hres, ?_⟩
  intro c hmem
  rw [hres] at hmem
  simp only [List.mem_singleton] at hmem
  exact GateAction.noConfusion hmem

/-- Witness for C1 at a concrete request. -/
theorem no_body_when_settlement_fails_witness :
    paymentMiddlewareHandler patternsDemo reqSettleFails =
      { actions := [.respondJson 402
          ("settle_exact_stellar_transaction_failed".toList)],
        settleCalled := true } := by
  have h := no_body_when_settlement_fails patternsDemo reqSettleFails
    patternDemo ("hdr".toList)
    ("settle_exact_stellar_transaction_failed".toList)
    { isValid := true, invalidReason := none, payer := some ("G1".toList) }
    runOk
    { success := false, errorReason := some ("settle_exact_stellar_transaction_failed".toList)
      payer := "G1".toList, transaction := [], network := "stellar-testnet".toList }
    (by decide) (by decide) (by decide) (by decide) (by decide) (by decide)
    (by decide) (by decide) (by decide) (by decide)
  exact h.1

/-- **C4, counterexample.**  A settle transport error is answered with
`402`, not `500`: at a concrete request whose handler succeeded and whose
settle call throws, the gate's only action is a `402` response. -/
theorem settle_transport_error_gives_402_not_500 :
    paymentMiddlewareHandler patternsDemo reqSettleRaise =
      { actions := [.respondJson 402 ("Payment settlement failed".toList)],
        settleCalled := true } ∧
    (∀ e, GateAction.respondJson 500 e ∉
      (paymentMiddlewareHandler patternsDemo reqSettleRaise).actions) := by
  constructor
  · decide
  · intro e hmem
    have hres : paymentMiddlewareHandler patternsDemo reqSettleRaise =
        { actions := [.respondJson 402 ("Payment settlement failed".toList)],
          settleCalled := true } := by decide
    rw [hres] at hmem
    simp only [List.mem_singleton] at hmem
    injection hmem with h1 _
    omega

/-- **C4, amended.**  Transport errors of the facilitator round-trips split
by operation: a verify throw is answered `500`, a settle throw (after a
successful handler) is answered `402`. -/
theorem transport_error_status_split
    (patterns : List RoutePattern) (req : GateRequest) (rp : RoutePattern)
    (h : List Char)
    (hmatch : findMatchingRoute patterns req.path req.method = some rp)
    (hhdr : req.xPaymentHeader = some h) (hdec : req.decodeOk = true) :
    (req.verify = .raise →
      paymentMiddlewareHandler patterns req =
        { actions := [.respondJson 500 ("Payment verification error".toList)],
          settleCalled := false }) ∧
    (∀ vr run, req.verify = .ok vr → vr.isValid = true →
      req.handler = .runs run → run.finalStatus < 400 →
      req.settleOut = .raise →
      paymentMiddlewareHandler patterns req =
        { actions := [.respondJson 402 ("Payment settlement failed".toList)],
          settleCalled := true }) := by
  constructor
  · intro hraise
    unfold paymentMiddlewareHandler
    rw [hmatch, hhdr, hdec, hraise]
    simp
  · intro vr run hver hvalid hrun hstatus hsettle
    unfold paymentMiddlewareHandler
    rw [hmatch, hhdr, hdec, hver, hrun, hsettle]
    simp [hvalid, Nat.not_le.mpr hstatus]

/-- Witness for the amended C4 at concrete requests. -/
theorem transport_error_status_split_witness :
    paymentMiddlewareHandler patternsDemo reqVerifyRaise =
      { actions := [.respondJson 500 ("Payment verification error".toList)],
        settleCalled := false } ∧
    paymentMiddlewareHandler patternsDemo reqSettleRaise =
      { actions := [.respondJson 402 ("Payment settlement failed".toList)],
        settleCalled := true } := by
  have hv := transport_error_status_split patternsDemo reqVerifyRaise
    patternDemo ("hdr".toList)
    (by decide) (by decide) (by decide)
  have hs := transport_error_status_split patternsDemo reqSettleRaise
    patternDemo ("hdr".toList)
    (by decide) (by decide) (by decide)
  exact ⟨hv.1 (by decide),
    hs.2 { isValid := true, invalidReason := none, payer := some ("G1".toList) }
      runOk (by decide) (by decide) (by decide) (by decide) (by decide)⟩

/-! ## The facilitator settle operation -/

/-- **C9.**  For every contract-asset settlement whose Soroban submission
returns `PENDING` but whose confirmation polling throws, `settle` returns
`success: true` with the submission hash even though ledger acceptance was
never observed. -/
theorem sac_poll_error_returns_success
    (payload : PaymentPayload) (req : PaymentRequirements) (env : SettleEnv)
    (x : List Char)
    (hnet : env.networkKnown = true)
    (hxdr : payload.payload.signedTxXdr = some x)
    (hasset : req.asset ≠ "native".toList)
    (hparse : env.sacParseOk = true) (hsend : env.sendRaise = false)
    (hstatus : env.sendStatus = .pending) (hpoll : env.poll = .raise) :
    settle payload req env =
      ({ success := true, errorReason := none
         payer := payload.payload.sourceAccount
         transaction := env.sendHash, network := payload.network },
       [.sorobanSend]) := by
  unfold settle settleSacToken
  rw [hnet, hxdr, hparse, hsend, hstatus, hpoll]
  simp [hasset]
  intro hcontr
  exact absurd hcontr hasset

/-- Witness for C9 at a concrete SAC settlement. -/
theorem sac_poll_error_returns_success_witness :
    settle pSac rSac envSacPollRaise =
      ({ success := true, errorReason := none, payer := "GSRC".toList
         transaction := "sachash".toList, network := "stellar-testnet".toList },
       [.sorobanSend]) := by
  have h := sac_poll_error_returns_success pSac rSac envSacPollRaise
    ("XDR0".toList) (by decide) (by decide) (by decide) (by decide)
    (by decide) (by decide) (by decide)
  exact h

/-- **C2, counterexample.**  `settle` consults no replay store: settling
the same already-settled payload a second time performs a second ledger
submission instead of returning a cached result, so settlement is not
idempotent on the transaction hash. -/
theorem settle_resubmits_settled_payload :
    (settle pValid rNative envAccept).1.success = true ∧
    (settle pValid rNative envAccept).2 ++ (settle pValid rNative envAccept).2 =
      [.horizonSubmitDirect, .horizonSubmitDirect] := by
  decide

/-- **C2, amended.**  `settle` keeps no replay state: its result and its
ledger submissions are a function of the payload, the requirements and the
environment alone, and every call on a parseable native payload performs
exactly one Horizon submission (fee-bumped when a facilitator key is
configured, direct otherwise) — so a retry of a settled payload submits
again, and no settlement record is written anywhere. -/
theorem settle_always_resubmits (p : PaymentPayload)
    (r : PaymentRequirements) (env : SettleEnv) (x h : List Char)
    (hnet : env.networkKnown = true)
    (hxdr : p.payload.signedTxXdr = some x)
    (hasset : r.asset = "native".toList) (hparse : env.parseOk = some h) :
    (settle p r env).2 =
      (if env.facilitatorKey then [.horizonSubmitFeeBump]
       else [.horizonSubmitDirect]) ∧
    ((settle p r env).2 ++ (settle p r env).2).length = 2 := by
  have heff : (settle p r env).2 =
      (if env.facilitatorKey then [.horizonSubmitFeeBump]
       else [.horizonSubmitDirect]) := by
    unfold settle settleNativeXlm
    rw [hnet, hxdr, hparse]
    simp [hasset]
    cases hkey : env.facilitatorKey with
    | true => cases env.feeBump <;> simp
    | false => cases env.direct <;> simp
  refine ⟨heff, ?_⟩
  rw [heff]
  cases env.facilitatorKey <;> simp

/-- Witness for the amended C2 at a concrete settled payload. -/
theorem settle_always_resubmits_witness :
    (settle pValid rNative envAccept).2 = [.horizonSubmitDirect] ∧
    ((settle pValid rNative envAccept).2 ++
      (settle pValid rNative envAccept).2).length = 2 := by
  have h := settle_always_resubmits pValid rNative envAccept
    ("XDR1".toList) ("feedc0de".toList)
    (by decide) (by decide) (by decide) (by decide)
  exact ⟨by simpa using h.1, h.2⟩

/-- **C3, counterexample.**  `settle` does not re-run verification: a
payload that underpays the requirements (hence fails the spec's verify
amount cross-check) is still submitted to the ledger and settles with
`success: true`. -/
theorem settle_submits_unverified_payload :
    specVerifyUnderpaid pUnder rNative = true ∧
    settle pUnder rNative envAccept =
      ({ success := true, errorReason := none, payer := "GSRC".toList
         transaction := "feedc0de".toList, network := "stellar-testnet".toList },
       [.horizonSubmitDirect]) := by
  decide

/-- **C3, amended.**  Before submitting, `settle` checks only that the
network tag is known, that a signed transaction is present, and (on the
native path) that it parses; each of those failures returns
`success: false` with no submission, and nothing else about the payload is
examined — the result is invariant under changing its amount, destination,
asset, expiry and nonce metadata. -/
theorem settle_shape_checks_only (p : PaymentPayload)
    (r : PaymentRequirements) (env : SettleEnv) :
    (env.networkKnown = false →
      settle p r env =
        (settleFail .invalidNetwork p.payload.sourceAccount [] p.network, [])) ∧
    (env.networkKnown = true → p.payload.signedTxXdr = none →
      settle p r env =
        (settleFail .missingSignedTxXdr p.payload.sourceAccount [] p.network, [])) ∧
    (∀ x, env.networkKnown = true → p.payload.signedTxXdr = some x →
      r.asset = "native".toList → env.parseOk = none →
      settle p r env =
        (settleFail .invalidXdr p.payload.sourceAccount [] p.network, [])) ∧
    (∀ a d asset v n,
      settle (p.withMeta a d asset v n) r env = settle p r env) := by
  refine ⟨?_, ?_, ?_, ?_⟩
  · intro hnet
    unfold settle
    rw [hnet]
    rfl
  · intro hnet hxdr
    unfold settle
    rw [hnet, hxdr]
    rfl
  · intro x hnet hxdr hasset hparse
    unfold settle settleNativeXlm
    rw [hnet, hxdr, hparse]
    simp [hasset]
  · intro a d asset v n
    rfl

/-- Witness for the amended C3 at concrete payloads and environments. -/
theorem settle_shape_checks_only_witness :
    settle pValid rNative envNoNet =
      (settleFail .invalidNetwork ("GSRC".toList) [] ("stellar-testnet".toList), []) ∧
    settle pNoXdr rNative envAccept =
      (settleFail .missingSignedTxXdr ("GSRC".toList) [] ("stellar-testnet".toList), []) ∧
    settle pValid rNative envParseFail =
      (settleFail .invalidXdr ("GSRC".toList) [] ("stellar-testnet".toList), []) ∧
    settle (pValid.withMeta [] [] [] 0 []) rNative envAccept =
      settle pValid rNative envAccept := by
  refine ⟨?_, ?_, ?_, ?_⟩
  · exact (settle_shape_checks_only pValid rNative envNoNet).1 (by decide)
  · exact (settle_shape_checks_only pNoXdr rNative envAccept).2.1
      (by decide) (by decide)
  · exact (settle_shape_checks_only pValid rNative envParseFail).2.2.1
      ("XDR1".toList) (by decide) (by decide) (by decide) (by decide)
  · exact (settle_shape_checks_only pValid rNative envAccept).2.2.2 [] [] [] 0 []

/-! ## The SAC signing path -/

/-- **C10.**  For every contract-asset payment, the signed payload produced
by `signPaymentHeader` carries placeholder metadata — amount `"0"`, empty
destination, asset and nonce, `validUntilLedger` 0 — and only the source
account is read back from the signed transaction. -/
theorem sac_signed_payload_has_placeholder_metadata
    (p : SacTokenPayload) (signer : StellarSigner) (env : SignEnv)
    (hnet : env.networkKnown = true) :
    ∃ signed, signPaymentHeaderSac p signer env = some
      { x402Version := p.x402Version, scheme := p.scheme, network := p.network
        payload :=
          { signedTxXdr := some signed
            sourceAccount := env.parseSource signed
            amount := "0".toList, destination := [], asset := []
            validUntilLedger := 0, nonce := [] } } := by
  refine ⟨match signer with
    | .keypair => env.signKeypair p.transaction
    | .freighter => env.signFreighter p.transaction, ?_⟩
  unfold signPaymentHeaderSac signSacTokenPayload
  rw [hnet]
  rfl

/-- Witness for C10 at a concrete SAC payload and signer. -/
theorem sac_signed_payload_has_placeholder_metadata_witness :
    ∃ signed, signPaymentHeaderSac sacPrepared .keypair signEnvDemo = some
      { x402Version := 1, scheme := "exact".toList
        network := "stellar-testnet".toList
        payload :=
          { signedTxXdr := some signed
            sourceAccount := signEnvDemo.parseSource signed
            amount := "0".toList, destination := [], asset := []
            validUntilLedger := 0, nonce := [] } } :=
  sac_signed_payload_has_placeholder_metadata sacPrepared .keypair signEnvDemo rfl

/-! ## The header envelope: round trip -/

theorem digitCh_toNat {m : Nat} (h : m < 10) : (digitCh m).toNat = 48 + m := by
  interval_cases m <;> decide

theorem isDigitCh_digitCh {m : Nat} (h : m < 10) : isDigitCh (digitCh m) = true := by
  interval_cases m <;> decide

theorem digitsOf_ne_nil (n : Nat) : digitsOf n ≠ [] := by
  unfold digitsOf
  split
  · simp
  · simp

theorem digitsOf_digits (n : Nat) : ∀ c ∈ digitsOf n, isDigitCh c = true := by
  induction n using Nat.strong_induction_on with
  | _ n ih =>
    unfold digitsOf
    split
    · intro c hc
      rw [List.mem_singleton] at hc
      subst hc
      exact isDigitCh_digitCh (by omega)
    · intro c hc
      rw [List.mem_append] at hc
      rcases hc with hc | hc
      · exact ih (n / 10) (Nat.div_lt_self (by omega) (by omega)) c hc
      · rw [List.mem_singleton] at hc
        subst hc
        exact isDigitCh_digitCh (Nat.mod_lt _ (by omega))

theorem natToCharsCore_eq_digitsOf (fuel : Nat) :
    ∀ n acc, n < fuel → natToCharsCore fuel n acc = digitsOf n ++ acc := by
  induction fuel with
  | zero => intro n acc h; omega
  | succ fuel ih =>
      intro n acc h
      unfold natToCharsCore
      by_cases h10 : n < 10
      · rw [if_pos h10]
        unfold digitsOf
        rw [if_pos h10]
        rfl
      · rw [if_neg h10]
        rw [ih (n / 10) _ (by omega)]
        conv_rhs => rw [digitsOf]
        rw [if_neg h10]
        simp

theorem natToChars_eq_digitsOf (n : Nat) : natToChars n = digitsOf n := by
  have h := natToCharsCore_eq_digitsOf (n + 1) n [] (by omega)
  simpa [natToChars] using h

theorem digitsVal_append (acc : Nat) (xs ys : List Char) :
    digitsVal acc (xs ++ ys) = digitsVal (digitsVal acc xs) ys := by
  induction xs generalizing acc with
  | nil => rfl
  | cons c cs ih => exact ih (acc * 10 + (c.toNat - 48))

theorem digitsVal_digitsOf (n : Nat) :
    ∀ acc, digitsVal acc (digitsOf n) = acc * 10 ^ (digitsOf n).length + n := by
  induction n using Nat.strong_induction_on with
  | _ n ih =>
    intro acc
    unfold digitsOf
    by_cases h10 : n < 10
    · rw [if_pos h10]
      have h1 : digitsVal acc [digitCh n] = acc * 10 + ((digitCh n).toNat - 48) := rfl
      rw [h1, digitCh_toNat h10]
      simp
    · rw [if_neg h10]
      rw [digitsVal_append]
      rw [ih (n / 10) (Nat.div_lt_self (by omega) (by omega))]
      have hm : n % 10 < 10 := Nat.mod_lt _ (by omega)
      have h1 : ∀ a : Nat, digitsVal a [digitCh (n % 10)] =
          a * 10 + ((digitCh (n % 10)).toNat - 48) := fun a => rfl
      rw [h1, digitCh_toNat hm]
      rw [List.length_append]
      simp [pow_succ]
      ring_nf
      omega

theorem parseDigitsAcc_digits (ds : List Char) (hds : ∀ c ∈ ds, isDigitCh c = true) :
    ∀ acc rest, parseDigitsAcc acc (ds ++ rest) = parseDigitsAcc (digitsVal acc ds) rest := by
  induction ds with
  | nil => intro acc rest; rfl
  | cons c cs ih =>
      intro acc rest
      have hc : isDigitCh c = true := hds c (List.mem_cons_self _ _)
      show (if isDigitCh c then parseDigitsAcc (acc * 10 + (c.toNat - 48)) (cs ++ rest)
            else (acc, c :: (cs ++ rest))) = _
      rw [hc]
      simp only [if_true]
      rw [ih (fun d hd => hds d (List.mem_cons_of_mem _ hd))]
      rfl

theorem parseDigitsAcc_stop (acc : Nat) (rest : List Char) (h : noDigitHead rest) :
    parseDigitsAcc acc rest = (acc, rest) := by
  cases rest with
  | nil => rfl
  | cons c cs =>
      unfold noDigitHead at h
      show (if isDigitCh c then parseDigitsAcc (acc * 10 + (c.toNat - 48)) cs
            else (acc, c :: cs)) = (acc, c :: cs)
      rw [h]
      simp

theorem parseDigitsAcc_round (n : Nat) (rest : List Char) (h : noDigitHead rest) :
    parseDigitsAcc 0 (digitsOf n ++ rest) = (n, rest) := by
  rw [parseDigitsAcc_digits (digitsOf n) (digitsOf_digits n)]
  rw [parseDigitsAcc_stop _ _ h]
  rw [digitsVal_digitsOf]
  simp

theorem hexVal_hexDigit {v : Nat} (h : v < 16) : hexVal (hexDigit v) = some v := by
  interval_cases v <;> decide

theorem parse_u_escape (h1 h2 h3 h4 : Char) (v1 v2 v3 v4 : Nat) (t : List Char)
    (e1 : hexVal h1 = some v1) (e2 : hexVal h2 = some v2)
    (e3 : hexVal h3 = some v3) (e4 : hexVal h4 = some v4) :
    parseStringBody ('\\' :: 'u' :: h1 :: h2 :: h3 :: h4 :: t) =
      (parseStringBody t).map fun (s, r) =>
        (Char.ofNat (v1 * 4096 + v2 * 256 + v3 * 16 + v4) :: s, r) := by
  rw [parseStringBody.eq_def]
  simp [e1, e2, e3, e4]

theorem parseStringBody_round (s rest : List Char) :
    parseStringBody (s.flatMap escapeChar ++ '"' :: rest) = some (s, rest) := by
  induction s with
  | nil =>
      show parseStringBody ([].flatMap escapeChar ++ '"' :: rest) = some ([], rest)
      rw [List.flatMap_nil, List.nil_append, parseStringBody.eq_def]
      simp
  | cons c cs ih =>
      rw [List.flatMap_cons, List.append_assoc]
      rw [escapeChar.eq_def]
      by_cases h1 : c = '"'
      · rw [if_pos h1]
        subst h1
        rw [List.cons_append, List.cons_append, List.nil_append]
        rw [parseStringBody.eq_def]
        dsimp only
        rw [ih]
        simp
      · rw [if_neg h1]
        by_cases h2 : c = '\\'
        · rw [if_pos h2]
          subst h2
          rw [List.cons_append, List.cons_append, List.nil_append]
          rw [parseStringBody.eq_def]
          dsimp only
          rw [ih]
          simp
        · rw [if_neg h2]
          by_cases h3 : c.toNat = 8
          · rw [if_pos h3]
            rw [List.cons_append, List.cons_append, List.nil_append]
            rw [parseStringBody.eq_def]
            dsimp only
            rw [ih]
            have hc : Char.ofNat 8 = c := by rw [← h3, Char.ofNat_toNat]
            rw [hc]
            simp
          · rw [if_neg h3]
            by_cases h4 : c.toNat = 9
            · rw [if_pos h4]
              rw [List.cons_append, List.cons_append, List.nil_append]
              rw [parseStringBody.eq_def]
              dsimp only
              rw [ih]
              have hc : Char.ofNat 9 = c := by rw [← h4, Char.ofNat_toNat]
              rw [hc]
              simp
            · rw [if_neg h4]
              by_cases h5 : c.toNat = 10
              · rw [if_pos h5]
                rw [List.cons_append, List.cons_append, List.nil_append]
                rw [parseStringBody.eq_def]
                dsimp only
                rw [ih]
                have hc : Char.ofNat 10 = c := by rw [← h5, Char.ofNat_toNat]
                rw [hc]
                simp
              · rw [if_neg h5]
                by_cases h6 : c.toNat = 12
                · rw [if_pos h6]
                  rw [List.cons_append, List.cons_append, List.nil_append]
                  rw [parseStringBody.eq_def]
                  dsimp only
                  rw [ih]
                  have hc : Char.ofNat 12 = c := by rw [← h6, Char.ofNat_toNat]
                  rw [hc]
                  simp
                · rw [if_neg h6]
                  by_cases h7 : c.toNat = 13
                  · rw [if_pos h7]
                    rw [List.cons_append, List.cons_append, List.nil_append]
                    rw [parseStringBody.eq_def]
                    dsimp only
                    rw [ih]
                    have hc : Char.ofNat 13 = c := by rw [← h7, Char.ofNat_toNat]
                    rw [hc]
                    simp
                  · rw [if_neg h7]
                    by_cases h8 : c.toNat < 32
                    · rw [if_pos h8]
                      rw [List.cons_append, List.cons_append, List.cons_append,
                        List.cons_append, List.cons_append, List.cons_append,
                        List.nil_append]
                      rw [parse_u_escape '0' '0' (hexDigit (c.toNat / 16))
                        (hexDigit (c.toNat % 16)) 0 0 (c.toNat / 16) (c.toNat % 16) _
                        (by decide) (by decide)
                        (hexVal_hexDigit (by omega : c.toNat / 16 < 16))
                        (hexVal_hexDigit (by omega : c.toNat % 16 < 16))]
                      rw [ih]
                      have hval : 0 * 4096 + 0 * 256 + c.toNat / 16 * 16 + c.toNat % 16 =
                          c.toNat := by omega
                      rw [hval, Char.ofNat_toNat]
                      simp
                    · rw [if_neg h8]
                      rw [List.cons_append, List.nil_append]
                      rw [parseStringBody.eq_def]
                      dsimp only
                      rw [if_neg h1, if_neg h2]
                      have h9 : ¬c.toNat < 32 := h8
                      rw [if_neg h9, ih]
                      simp

theorem char_valid_ranges (c : Char) :
    c.toNat < 0xD800 ∨ (0xDFFF < c.toNat ∧ c.toNat < 0x110000) := by
  have h := c.valid
  unfold UInt32.isValidChar Nat.isValidChar at h
  exact h

theorem utf8DecodeOne_round (c : Char) (bs : List Nat) :
    utf8DecodeOne (utf8EncodeChar c ++ bs) = some (c, bs) := by
  have hv := char_valid_ranges c
  unfold utf8EncodeChar utf8DecodeOne
  by_cases h1 : c.toNat < 0x80
  · rw [if_pos h1]
    rw [List.cons_append, List.nil_append]
    dsimp only
    rw [if_pos h1, Char.ofNat_toNat]
  · rw [if_neg h1]
    by_cases h2 : c.toNat < 0x800
    · rw [if_pos h2]
      rw [List.cons_append, List.cons_append, List.nil_append]
      dsimp only
      rw [if_neg (by omega : ¬(0xC0 + c.toNat / 64 < 0x80)),
        if_pos (by omega : 0xC0 + c.toNat / 64 < 0xE0)]
      have hcont : (0xC0 ≤ 0xC0 + c.toNat / 64 && isCont (0x80 + c.toNat % 64)) = true := by
        unfold isCont
        simp only [Bool.and_eq_true, decide_eq_true_eq]
        omega
      rw [if_pos hcont]
      have hn : (0xC0 + c.toNat / 64 - 0xC0) * 64 + (0x80 + c.toNat % 64 - 0x80) =
          c.toNat := by omega
      rw [hn]
      rw [if_pos (by omega : 0x80 ≤ c.toNat)]
      rw [Char.ofNat_toNat]
    · rw [if_neg h2]
      by_cases h3 : c.toNat < 0x10000
      · rw [if_pos h3]
        rw [List.cons_append, List.cons_append, List.cons_append, List.nil_append]
        dsimp only
        rw [if_neg (by omega : ¬(0xE0 + c.toNat / 4096 < 0x80)),
          if_neg (by omega : ¬(0xE0 + c.toNat / 4096 < 0xE0)),
          if_pos (by omega : 0xE0 + c.toNat / 4096 < 0xF0)]
        have hcont : (isCont (0x80 + c.toNat / 64 % 64) && isCont (0x80 + c.toNat % 64)) = true := by
          unfold isCont
          simp only [Bool.and_eq_true, decide_eq_true_eq]
          omega
        rw [if_pos hcont]
        have hn : (0xE0 + c.toNat / 4096 - 0xE0) * 4096 +
            (0x80 + c.toNat / 64 % 64 - 0x80) * 64 + (0x80 + c.toNat % 64 - 0x80) =
            c.toNat := by omega
        rw [hn]
        rw [if_pos (by omega : 0x800 ≤ c.toNat ∧ ¬(0xD800 ≤ c.toNat ∧ c.toNat < 0xE000))]
        rw [Char.ofNat_toNat]
      · rw [if_neg h3]
        rw [List.cons_append, List.cons_append, List.cons_append, List.cons_append,
          List.nil_append]
        dsimp only
        rw [if_neg (by omega : ¬(0xF0 + c.toNat / 262144 < 0x80)),
          if_neg (by omega : ¬(0xF0 + c.toNat / 262144 < 0xE0)),
          if_neg (by omega : ¬(0xF0 + c.toNat / 262144 < 0xF0)),
          if_pos (by omega : 0xF0 + c.toNat / 262144 < 0xF8)]
        have hcont : (isCont (0x80 + c.toNat / 4096 % 64) &&
            (isCont (0x80 + c.toNat / 64 % 64) && isCont (0x80 + c.toNat % 64))) = true := by
          unfold isCont
          simp only [Bool.and_eq_true, decide_eq_true_eq]
          omega
        have hcont2 : (isCont (0x80 + c.toNat / 4096 % 64) &&
            isCont (0x80 + c.toNat / 64 % 64) && isCont (0x80 + c.toNat % 64)) = true := by
          unfold isCont
          simp only [Bool.and_eq_true, decide_eq_true_eq]
          omega
        rw [if_pos hcont2]
        have hn : (0xF0 + c.toNat / 262144 - 0xF0) * 262144 +
            (0x80 + c.toNat / 4096 % 64 - 0x80) * 4096 +
            (0x80 + c.toNat / 64 % 64 - 0x80) * 64 + (0x80 + c.toNat % 64 - 0x80) =
            c.toNat := by omega
        rw [hn]
        rw [if_pos (by omega : 0x10000 ≤ c.toNat ∧ c.toNat < 0x110000)]
        rw [Char.ofNat_toNat]
theorem utf8EncodeChar_ne_nil (c : Char) : utf8EncodeChar c ≠ [] := by
  unfold utf8EncodeChar
  by_cases h1 : c.toNat < 0x80
  · rw [if_pos h1]; simp
  · rw [if_neg h1]
    by_cases h2 : c.toNat < 0x800
    · rw [if_pos h2]; simp
    · rw [if_neg h2]
      by_cases h3 : c.toNat < 0x10000
      · rw [if_pos h3]; simp
      · rw [if_neg h3]; simp

theorem length_le_utf8Encode (s : List Char) : s.length ≤ (utf8Encode s).length := by
  induction s with
  | nil => simp [utf8Encode]
  | cons c cs ih =>
      unfold utf8Encode at ih ⊢
      rw [List.flatMap_cons, List.length_append, List.length_cons]
      have h1 : 1 ≤ (utf8EncodeChar c).length := by
        cases hce : utf8EncodeChar c with
        | nil => exact absurd hce (utf8EncodeChar_ne_nil c)
        | cons b t => simp
      omega

theorem utf8DecodeCore_round (s : List Char) :
    ∀ fuel, s.length ≤ fuel → utf8DecodeCore fuel (utf8Encode s) = some s := by
  induction s with
  | nil => intro fuel _; cases fuel <;> rfl
  | cons c cs ih =>
      intro fuel hfuel
      rw [List.length_cons] at hfuel
      cases fuel with
      | zero => omega
      | succ f =>
          unfold utf8Encode
          rw [List.flatMap_cons]
          cases hce : utf8EncodeChar c with
          | nil => exact absurd hce (utf8EncodeChar_ne_nil c)
          | cons b t =>
              rw [List.cons_append]
              rw [utf8DecodeCore.eq_def]
              dsimp only
              rw [← List.cons_append, ← hce, utf8DecodeOne_round]
              dsimp only
              have ih2 := ih f (by omega)
              unfold utf8Encode at ih2
              rw [ih2]
              rfl

theorem utf8_round (s : List Char) : utf8Decode (utf8Encode s) = some s := by
  unfold utf8Decode
  exact utf8DecodeCore_round s _ (length_le_utf8Encode s)

theorem b64Val_b64Char : ∀ n, n < 64 → b64Val (b64Char n) = some n := by decide

theorem b64Char_ne_pad : ∀ n, n < 64 → ¬(b64Char n = '=') := by decide

theorem b64_round (bytes : List Nat) (h : ∀ b ∈ bytes, b < 256) :
    b64Decode (b64Encode bytes) = some bytes := by
  induction bytes using b64Encode.induct with
  | case1 => rfl
  | case2 a =>
      have ha : a < 256 := h a (by simp)
      rw [b64Encode]
      rw [b64Decode.eq_def]
      dsimp only
      rw [if_pos ⟨rfl, rfl, rfl⟩]
      rw [b64Val_b64Char _ (by omega), b64Val_b64Char _ (by omega)]
      dsimp only
      have : a / 4 * 4 + a % 4 * 16 / 16 = a := by omega
      rw [this]
  | case3 a b =>
      have ha : a < 256 := h a (by simp)
      have hb : b < 256 := h b (by simp)
      rw [b64Encode]
      rw [b64Decode.eq_def]
      dsimp only
      rw [if_neg (by
        intro hc
        exact b64Char_ne_pad _ (by omega) hc.1)]
      rw [if_pos ⟨rfl, rfl⟩]
      rw [b64Val_b64Char _ (by omega), b64Val_b64Char _ (by omega),
        b64Val_b64Char _ (by omega)]
      dsimp only
      have h1 : a / 4 * 4 + (a % 4 * 16 + b / 16) / 16 = a := by omega
      have h2 : (a % 4 * 16 + b / 16) % 16 * 16 + b % 16 * 4 / 4 = b := by omega
      rw [h1, h2]
  | case4 a b c rest ih =>
      have ha : a < 256 := h a (by simp)
      have hb : b < 256 := h b (by simp)
      have hc : c < 256 := h c (by simp)
      rw [b64Encode]
      rw [b64Decode.eq_def]
      dsimp only
      rw [if_neg (by
        intro hcc
        exact b64Char_ne_pad _ (by omega) hcc.1)]
      rw [if_neg (by
        intro hcc
        exact b64Char_ne_pad _ (by omega) hcc.1)]
      rw [b64Val_b64Char _ (by omega), b64Val_b64Char _ (by omega),
        b64Val_b64Char _ (by omega), b64Val_b64Char _ (by omega)]
      dsimp only
      rw [ih (fun x hx => h x (by simp [hx]))]
      dsimp only
      have h1 : a / 4 * 4 + (a % 4 * 16 + b / 16) / 16 = a := by omega
      have h2 : (a % 4 * 16 + b / 16) % 16 * 16 + (b % 16 * 4 + c / 64) / 4 = b := by omega
      have h3 : (b % 16 * 4 + c / 64) % 4 * 64 + c % 64 = c := by omega
      rw [h1, h2, h3]

theorem skipWs_not {c : Char} (t : List Char) (h : isJsonWs c = false) :
    skipWs (c :: t) = c :: t := by
  unfold skipWs
  rw [List.dropWhile_cons, h]
  simp

theorem isDigitCh_not_ws {c : Char} (h : isDigitCh c = true) : isJsonWs c = false := by
  unfold isDigitCh at h
  unfold isJsonWs
  simp only [Bool.and_eq_true, decide_eq_true_eq] at h
  simp only [Bool.or_eq_false_iff, decide_eq_false_iff_not]
  refine ⟨⟨⟨?_, ?_⟩, ?_⟩, ?_⟩ <;> intro hc
  · rw [hc] at h; simp at h
  · omega
  · omega
  · omega

theorem quote_glue (k X : List Char) :
    quoteStr k ++ X = '"' :: (k.flatMap escapeChar ++ '"' :: X) := by
  simp [quoteStr, List.append_assoc]

theorem parse_stringify (fuel : Nat) :
    (∀ j rest, Json.weight j ≤ fuel → noDigitHead rest →
      parseJsonVal fuel (jsonStringify j ++ rest) = some (j, rest)) ∧
    (∀ k v r rest, JsonFields.weight (.cons k v r) ≤ fuel →
      parseJsonFields fuel
        (jsonStringifyFields (.cons k v r) ++ rcurl :: rest) =
        some (.cons k v r, rest)) := by
  induction fuel with
  | zero =>
      constructor
      · intro j rest hw _
        cases j <;> simp [Json.weight] at hw
      · intro k v r rest hw
        simp [JsonFields.weight] at hw
  | succ fuel ih =>
      obtain ⟨ihv, ihf⟩ := ih
      constructor
      · intro j rest hw hnd
        cases j with
        | str s =>
            rw [jsonStringify, quote_glue]
            rw [parseJsonVal.eq_def]
            try dsimp only
            rw [skipWs_not _ (by decide)]
            try dsimp only
            rw [if_pos rfl]
            rw [parseStringBody_round]
            rfl
        | nat n =>
            rw [jsonStringify, natToChars_eq_digitsOf]
            cases hd : digitsOf n with
            | nil => exact absurd hd (digitsOf_ne_nil n)
            | cons dh dt =>
                have hdig : isDigitCh dh = true :=
                  digitsOf_digits n dh (by rw [hd]; exact List.mem_cons_self _ _)
                rw [List.cons_append]
                rw [parseJsonVal.eq_def]
                try dsimp only
                rw [skipWs_not _ (isDigitCh_not_ws hdig)]
                try dsimp only
                rw [if_neg (by
                  intro hc
                  rw [hc] at hdig
                  exact absurd hdig (by decide))]
                rw [hdig]
                try dsimp only
                rw [← List.cons_append, ← hd, parseDigitsAcc_round n rest hnd]
                simp
        | obj fs =>
            cases fs with
            | nil =>
                have hshape : jsonStringify (.obj .nil) ++ rest =
                    lcurl :: rcurl :: rest := by
                  simp [jsonStringify, jsonStringifyFields]
                rw [hshape]
                rw [parseJsonVal.eq_def]
                try dsimp only
                rw [skipWs_not _ (by decide)]
                try dsimp only
                rw [if_neg (by decide), if_neg (by decide), if_pos rfl]
                rw [skipWs_not _ (by decide)]
                try dsimp only
                rw [if_pos rfl]
            | cons k v r =>
                have hshape : jsonStringify (.obj (.cons k v r)) ++ rest =
                    lcurl :: (jsonStringifyFields (.cons k v r) ++ rcurl :: rest) := by
                  simp [jsonStringify, List.append_assoc]
                rw [hshape]
                obtain ⟨tl, htl⟩ : ∃ tl,
                    jsonStringifyFields (.cons k v r) ++ rcurl :: rest = '"' :: tl := by
                  cases r with
                  | nil =>
                      refine ⟨k.flatMap escapeChar ++ '"' ::
                        (':' :: (jsonStringify v ++ rcurl :: rest)), ?_⟩
                      simp [jsonStringifyFields, quoteStr, List.append_assoc]
                  | cons k2 v2 r2 =>
                      refine ⟨k.flatMap escapeChar ++ '"' ::
                        (':' :: (jsonStringify v ++ ',' ::
                          (jsonStringifyFields (.cons k2 v2 r2) ++ rcurl :: rest))), ?_⟩
                      simp [jsonStringifyFields, quoteStr, List.append_assoc]
                rw [parseJsonVal.eq_def]
                try dsimp only
                rw [skipWs_not _ (by decide)]
                try dsimp only
                rw [if_neg (by decide), if_neg (by decide), if_pos rfl]
                rw [htl]
                rw [skipWs_not _ (by decide)]
                try dsimp only
                rw [if_neg (by decide)]
                rw [← htl]
                rw [ihf k v r rest (by
                  simp [Json.weight, JsonFields.weight] at hw ⊢
                  omega)]
      · intro k v r rest hw
        cases r with
        | nil =>
            have hshape : jsonStringifyFields (.cons k v .nil) ++ rcurl :: rest =
                '"' :: (k.flatMap escapeChar ++ '"' ::
                  (':' :: (jsonStringify v ++ rcurl :: rest))) := by
              simp [jsonStringifyFields, quoteStr, List.append_assoc]
            rw [hshape]
            rw [parseJsonFields.eq_def]
            try dsimp only
            rw [skipWs_not _ (by decide)]
            try dsimp only
            rw [if_pos rfl]
            rw [parseStringBody_round]
            try dsimp only
            rw [skipWs_not _ (by decide)]
            try dsimp only
            rw [if_pos rfl]
            rw [ihv v (rcurl :: rest) (by
              simp [JsonFields.weight] at hw
              omega) (by show isDigitCh _ = false; decide)]
            try dsimp only
            rw [skipWs_not _ (by decide)]
            try dsimp only
            rw [if_neg (by decide), if_pos rfl]
        | cons k2 v2 r2 =>
            have hshape : jsonStringifyFields (.cons k v (.cons k2 v2 r2)) ++
                rcurl :: rest =
                '"' :: (k.flatMap escapeChar ++ '"' ::
                  (':' :: (jsonStringify v ++ ',' ::
                    (jsonStringifyFields (.cons k2 v2 r2) ++ rcurl :: rest)))) := by
              simp [jsonStringifyFields, quoteStr, List.append_assoc]
            rw [hshape]
            rw [parseJsonFields.eq_def]
            try dsimp only
            rw [skipWs_not _ (by decide)]
            try dsimp only
            rw [if_pos rfl]
            rw [parseStringBody_round]
            try dsimp only
            rw [skipWs_not _ (by decide)]
            try dsimp only
            rw [if_pos rfl]
            rw [ihv v (',' :: (jsonStringifyFields (.cons k2 v2 r2) ++ rcurl :: rest))
              (by
                simp [JsonFields.weight] at hw ⊢
                omega) (by show isDigitCh _ = false; decide)]
            try dsimp only
            rw [skipWs_not _ (by decide)]
            try dsimp only
            rw [if_pos rfl]
            rw [ihf k2 v2 r2 rest (by
              simp [JsonFields.weight] at hw ⊢
              omega)]

theorem digitsOf_length_pos (n : Nat) : 1 ≤ (digitsOf n).length := by
  cases hd : digitsOf n with
  | nil => exact absurd hd (digitsOf_ne_nil n)
  | cons dh dt => simp

mutual
theorem weight_le_len : ∀ j : Json, Json.weight j ≤ (jsonStringify j).length
  | .str s => by
      simp [Json.weight, jsonStringify, quoteStr]
  | .nat n => by
      have h := digitsOf_length_pos n
      simp [Json.weight, jsonStringify, natToChars_eq_digitsOf]
      omega
  | .obj fs => by
      have h := weightF_le_len fs
      simp [Json.weight, jsonStringify]
      omega

theorem weightF_le_len : ∀ fs : JsonFields,
    JsonFields.weight fs ≤ (jsonStringifyFields fs).length + 1
  | .nil => by simp [JsonFields.weight, jsonStringifyFields]
  | .cons k v .nil => by
      have h1 := weight_le_len v
      simp [JsonFields.weight, jsonStringifyFields, quoteStr]
      omega
  | .cons k v (.cons k2 v2 r2) => by
      have h1 := weight_le_len v
      have h2 := weightF_le_len (.cons k2 v2 r2)
      simp [JsonFields.weight, jsonStringifyFields, quoteStr] at h2 ⊢
      omega
end

theorem jsonParse_stringify (j : Json) : jsonParse (jsonStringify j) = some j := by
  unfold jsonParse
  have hmono : ∀ fuel j2 rest, Json.weight j2 ≤ fuel → noDigitHead rest →
      parseJsonVal fuel (jsonStringify j2 ++ rest) = some (j2, rest) :=
    fun fuel => (parse_stringify fuel).1
  have h := hmono ((jsonStringify j).length + 1) j []
    (by have := weight_le_len j; omega) (by show True; trivial)
  rw [List.append_nil] at h
  rw [h]
  rfl

theorem utf8EncodeChar_lt_256 (c : Char) : ∀ b ∈ utf8EncodeChar c, b < 256 := by
  have hv : c.toNat < 0xD800 ∨ (0xDFFF < c.toNat ∧ c.toNat < 0x110000) := by
    have h := c.valid
    unfold UInt32.isValidChar Nat.isValidChar at h
    exact h
  unfold utf8EncodeChar
  by_cases h1 : c.toNat < 0x80
  · rw [if_pos h1]
    intro b hb
    rw [List.mem_singleton] at hb
    omega
  · rw [if_neg h1]
    by_cases h2 : c.toNat < 0x800
    · rw [if_pos h2]
      intro b hb
      simp only [List.mem_cons, List.not_mem_nil, or_false] at hb
      rcases hb with rfl | rfl <;> omega
    · rw [if_neg h2]
      by_cases h3 : c.toNat < 0x10000
      · rw [if_pos h3]
        intro b hb
        simp only [List.mem_cons, List.not_mem_nil, or_false] at hb
        rcases hb with rfl | rfl | rfl <;> omega
      · rw [if_neg h3]
        intro b hb
        simp only [List.mem_cons, List.not_mem_nil, or_false] at hb
        rcases hb with rfl | rfl | rfl | rfl <;> omega

theorem utf8Encode_lt_256 (s : List Char) : ∀ b ∈ utf8Encode s, b < 256 := by
  induction s with
  | nil => intro b hb; simp [utf8Encode] at hb
  | cons c cs ih =>
      intro b hb
      unfold utf8Encode at hb
      rw [List.flatMap_cons, List.mem_append] at hb
      rcases hb with hb | hb
      · exact utf8EncodeChar_lt_256 c b hb
      · exact ih b hb

theorem encode_decode (j : Json) :
    decodePaymentHeader (encodePaymentHeader j) = some j := by
  unfold encodePaymentHeader decodePaymentHeader safeBase64Encode safeBase64Decode
  rw [b64_round _ (utf8Encode_lt_256 _)]
  dsimp only
  rw [utf8_round]
  exact jsonParse_stringify j

theorem toJson_ofJson (p : PaymentPayload) :
    PaymentPayload.ofJson (PaymentPayload.toJson p) = some p := by
  obtain ⟨v, s, n, pl⟩ := p
  obtain ⟨xdr, src, amt, dst, ast, vul, non⟩ := pl
  cases xdr <;> rfl

/-- **C8.**  For every well-formed payload, decoding the encoded header
round-trips: base64-decoding, UTF-8-decoding and JSON-parsing the encoded
JSON text yields a JSON value structurally equal to the original payload,
and reading the typed payload back out of it recovers the payload. -/
theorem payment_header_round_trip (p : PaymentPayload) :
    decodePaymentHeader (encodePaymentHeader (PaymentPayload.toJson p)) =
      some (PaymentPayload.toJson p) ∧
    PaymentPayload.ofJson (PaymentPayload.toJson p) = some p :=
  ⟨encode_decode _, toJson_ofJson p⟩

end StellarX402
